import Mathlib

/-!
# Verification of the rabbit-game simulation core

A shallow embedding of `src/components/GameEngine.tsx` (the simulation and
collision engine of the bomb-placement arcade game) together with proofs of
the specification's claims about it.

Modelling decisions:

* JavaScript numbers are modelled exactly.  All numeric constants in the
  engine are rationals, and the only irrational values ever produced are of
  the form `a + b·√2` (from `Math.hypot` in the diagonal-movement
  normalisation), so pixel coordinates live in the computable quadratic
  field `Q2 = ℚ + ℚ·√2`, represented by pairs of rationals with exact
  arithmetic and a decidable order.
* `Math.hypot(u, v) < t` (enemy contact check, `t = TILE_SIZE * 0.7 > 0`) is
  embedded as the equivalent exact comparison `u² + v² < t²`.
* `Math.random()` draws are inputs: map generation takes a per-cell boolean
  oracle (for `Math.random() < 0.3`), enemy spawning takes a per-attempt
  oracle of grid coordinates, and the per-tick enemy AI takes a per-enemy
  oracle of direction choices.
* `Date.now()` is the `now` parameter threaded to `update`; the produced
  `id` fields are never read by the engine.
* The mutable refs of the React component are gathered into one
  `GameState` record; `update` is the per-tick state transition.  The React
  state variable `gameStatus` read inside `update` is the status at tick
  entry (a closure capture), while `setGameStatus` replaces the status seen
  by the *next* tick; the embedding reflects this by reading the entry
  status for the guards and writing the `status` field for the transitions.
-/

namespace RabbitGame


/-- `TILE_SIZE = 48` from `constants.ts`. -/

def TILE_SIZE : ℚ := 48

/-- `GRID_ROWS = 15` from `constants.ts`. -/

def GRID_ROWS : ℤ := 15

/-- `GRID_COLS = 15` from `constants.ts`. -/

def GRID_COLS : ℤ := 15

/-- `BOMB_TIMER_MS = 3000` from `constants.ts`. -/

def BOMB_TIMER_MS : ℚ := 3000

/-- `EXPLOSION_DURATION_MS = 600` from `constants.ts`. -/

def EXPLOSION_DURATION_MS : ℚ := 600

/-- `HITBOX_SIZE = 30` from `GameEngine.tsx`. -/

def HITBOX_SIZE : ℚ := 30

/-- Exact representation of the subfield `ℚ + ℚ·√2` of the reals:
`⟨a, b⟩` denotes `a + b·√2`.  Every number the engine ever computes lies in
this field (the only irrational operation is `Math.hypot` applied to two
values of equal absolute value). -/

structure Q2 where
  a : ℚ
  b : ℚ
deriving DecidableEq, Repr

attribute [ext] Q2

namespace Q2

def ofQ (q : ℚ) : Q2 := ⟨q, 0⟩

instance : Zero Q2 := ⟨⟨0, 0⟩⟩

instance : Add Q2 := ⟨fun x y => ⟨x.a + y.a, x.b + y.b⟩⟩

instance : Neg Q2 := ⟨fun x => ⟨-x.a, -x.b⟩⟩

instance : Sub Q2 := ⟨fun x y => ⟨x.a - y.a, x.b - y.b⟩⟩

/-- `(a + b√2)(c + d√2) = (ac + 2bd) + (ad + bc)√2`. -/

instance : Mul Q2 := ⟨fun x y => ⟨x.a * y.a + 2 * x.b * y.b, x.a * y.b + x.b * y.a⟩⟩

/-- Exact inverse: `(a + b√2)⁻¹ = (a − b√2)/(a² − 2b²)` (0 at 0, the usual
Lean convention; the engine never divides by zero on reachable values). -/

def inv (x : Q2) : Q2 :=
  let d := x.a ^ 2 - 2 * x.b ^ 2
  ⟨x.a / d, -x.b / d⟩

instance : Div Q2 := ⟨fun x y => x * inv y⟩

/-- Decides `0 < a + b·√2` by sign analysis and squaring (exact, since
`√2` is irrational). -/

def posB (x : Q2) : Bool :=
  if x.b = 0 then decide (0 < x.a)
  else if 0 < x.b then decide (0 ≤ x.a) || decide (x.a ^ 2 < 2 * x.b ^ 2)
  else decide (0 < x.a) && decide (2 * x.b ^ 2 < x.a ^ 2)

/-- Decides `x < y` over `ℚ + ℚ√2`. -/

def ltB (x y : Q2) : Bool := posB (y - x)

/-- Decides `x ≤ y` over `ℚ + ℚ√2`. -/

def leB (x y : Q2) : Bool := !posB (x - y)

/-- `⌊B·√2⌋` for an integer `B` (exact; uses that `√2` is irrational, so
`B·√2` is never an integer when `B ≠ 0`). -/

def isqrt2 (B : ℤ) : ℤ :=
  if 0 ≤ B then (Nat.sqrt (2 * B.natAbs * B.natAbs) : ℤ)
  else -(Nat.sqrt (2 * B.natAbs * B.natAbs) : ℤ) - 1

/-- Exact `Math.floor` on `ℚ + ℚ√2`.  For a rational value it is the
rational floor; otherwise write `x = (A + B√2)/D` over a common positive
denominator `D` and use `⌊(A + B√2)/D⌋ = ⌊(A + ⌊B√2⌋)/D⌋` (valid because
`B√2` is not an integer for `B ≠ 0`). -/

def floorZ (x : Q2) : ℤ :=
  if x.b = 0 then ⌊x.a⌋
  else
    let A : ℤ := x.a.num * (x.b.den : ℤ)
    let B : ℤ := x.b.num * (x.a.den : ℤ)
    let D : ℤ := (x.a.den : ℤ) * (x.b.den : ℤ)
    Int.fdiv (A + isqrt2 B) D

/-- Rational square root, when exact: `some r` with `r² = q`, else `none`. -/

def ratSqrt (q : ℚ) : Option ℚ :=
  if q.num < 0 then none
  else
    let sn := Nat.sqrt q.num.natAbs
    let sd := Nat.sqrt q.den
    if sn * sn = q.num.natAbs ∧ sd * sd = q.den then some ((sn : ℚ) / (sd : ℚ))
    else none

/-- Square root on `ℚ + ℚ√2`, exact whenever the result stays in the field
(`√q` for a rational square `q`, and `√(2q²) = q√2`); `0` (junk) otherwise.
The engine only takes square roots (inside `Math.hypot`) of `dx² + dy²`
with `|dx| = |dy| = speed`, i.e. of `2·speed²`, which is in the field. -/

def sqrt2F (v : Q2) : Q2 :=
  if v.b = 0 then
    match ratSqrt v.a with
    | some r => ⟨r, 0⟩
    | none =>
      match ratSqrt (v.a / 2) with
      | some r => ⟨0, r⟩
      | none => 0
  else 0

end Q2

/-- `Math.hypot(x, y)` as used by the movement normalisation (exact for the
arguments the engine supplies, see `Q2.sqrt2F`). -/

def jsHypot (x y : Q2) : Q2 := Q2.sqrt2F (x * x + y * y)

/-- `Math.abs(x) < t` for a rational threshold `t`. -/

def absLtB (x : Q2) (t : ℚ) : Bool := Q2.ltB x (Q2.ofQ t) && Q2.ltB (-Q2.ofQ t) x

/-- `TileType` from `types.ts`. -/

inductive TileType
  | Empty
  | HardWall
  | SoftWall
deriving DecidableEq, Repr

/-- The tile matrix `mapRef.current : TileType[][]` (row-major). -/

abbrev Grid := List (List TileType)

/-- `mapRef.current[r][c]`, total with default `Empty`; the engine only
reads in-bounds cells (every access is behind a bounds check). -/

def tileAtD (m : Grid) (r c : ℤ) : TileType :=
  (m.getD r.toNat []).getD c.toNat TileType.Empty

/-- `mapRef.current[r][c] = t` (in-place row update). -/

def setTile (m : Grid) (r c : ℤ) (t : TileType) : Grid :=
  m.set r.toNat ((m.getD r.toNat []).set c.toNat t)

/-- Result record of `getGridPos`. -/

structure GridPos where
  c : ℤ
  r : ℤ
deriving DecidableEq, Repr

/-- `getGridPos(x, y) = { c: Math.floor(x / TILE_SIZE), r: Math.floor(y / TILE_SIZE) }`. -/

def getGridPos (x y : Q2) : GridPos :=
  ⟨Q2.floorZ (x / Q2.ofQ TILE_SIZE), Q2.floorZ (y / Q2.ofQ TILE_SIZE)⟩

/-- Axis-aligned rectangle `{x, y, w, h}` as used by `rectIntersect`. -/

structure Rect where
  x : Q2
  y : Q2
  w : Q2
  h : Q2

/-- `rectIntersect(r1, r2)` from `GameEngine.tsx`:
`!(r2.x >= r1.x + r1.w || r2.x + r2.w <= r1.x || r2.y >= r1.y + r1.h || r2.y + r2.h <= r1.y)`. -/

def rectIntersect (r1 r2 : Rect) : Bool :=
  !(Q2.leB (r1.x + r1.w) r2.x || Q2.leB (r2.x + r2.w) r1.x ||
    Q2.leB (r1.y + r1.h) r2.y || Q2.leB (r2.y + r2.h) r1.y)

/-- `Player` record. -/

structure Player where
  x : Q2
  y : Q2
  width : ℚ
  height : ℚ
  alive : Bool
  speed : ℚ
  bombCount : ℤ
  maxBombs : ℤ
  blastRadius : ℕ
deriving DecidableEq, Repr

/-- `Bomb` record. -/

structure Bomb where
  id : ℤ
  x : Q2
  y : Q2
  timer : ℚ
  range : ℕ
  ownerId : String
deriving DecidableEq, Repr

/-- `ExplosionParticle` record (`{x: col, y: row, alpha}`). -/

structure ExplosionParticle where
  x : ℤ
  y : ℤ
  alpha : ℚ
deriving DecidableEq, Repr

/-- `Explosion` record. -/

structure Explosion where
  id : ℤ
  timer : ℚ
  particles : List ExplosionParticle
deriving DecidableEq, Repr

/-- A cardinal unit vector `{x, y}`. -/

structure Dir2 where
  x : ℤ
  y : ℤ
deriving DecidableEq, Repr

/-- `Enemy` record. -/

structure Enemy where
  id : ℚ
  x : Q2
  y : Q2
  width : ℚ
  height : ℚ
  alive : Bool
  speed : ℚ
  direction : Dir2
  changeDirTimer : ℚ
deriving DecidableEq, Repr

/-- `GameStatus` from `types.ts`. -/

inductive GameStatus
  | Menu
  | Playing
  | Won
  | Lost
deriving DecidableEq, Repr

/-- The engine state: the React refs `mapRef`, `playerRef`, `bombsRef`,
`explosionsRef`, `enemiesRef` plus the `gameStatus` React state. -/

structure GameState where
  map : Grid
  player : Player
  bombs : List Bomb
  explosions : List Explosion
  enemies : List Enemy
  status : GameStatus
deriving DecidableEq, Repr

/-- The input snapshot `keysPressed` as consumed by one tick. -/

structure Inputs where
  up : Bool
  down : Bool
  left : Bool
  right : Bool
  space : Bool
deriving DecidableEq, Repr

/-- Integer interval `[lo, hi]` as a list (the index set of a
`for (let i = lo; i <= hi; i++)` loop). -/

def intRange (lo hi : ℤ) : List ℤ :=
  (List.range (hi + 1 - lo).toNat).map fun i : ℕ => lo + (i : ℤ)

/-- Rectangle centred at `(x, y)` with extent `w × h`:
`{ x: x - w/2, y: y - h/2, w, h }` (both `pRect` and `curRect` in
`isCollision` have this shape). -/

def centerRect (x y : Q2) (w h : ℚ) : Rect :=
  ⟨x - Q2.ofQ (w / 2), y - Q2.ofQ (h / 2), Q2.ofQ w, Q2.ofQ h⟩

/-- The wall section of `isCollision`: spans the grid cells covered by the
target rectangle (with the `0.01` epsilon on the far edges) and reports a
block if any covered cell is out of bounds or holds a non-`Empty` tile. -/

def wallsBlock (m : Grid) (targetX targetY : Q2) (w h : ℚ) : Bool :=
  let pRect := centerRect targetX targetY w h
  let leftCol := Q2.floorZ (pRect.x / Q2.ofQ TILE_SIZE)
  let rightCol := Q2.floorZ ((pRect.x + pRect.w - Q2.ofQ (1 / 100)) / Q2.ofQ TILE_SIZE)
  let topRow := Q2.floorZ (pRect.y / Q2.ofQ TILE_SIZE)
  let bottomRow := Q2.floorZ ((pRect.y + pRect.h - Q2.ofQ (1 / 100)) / Q2.ofQ TILE_SIZE)
  (intRange topRow bottomRow).any fun r =>
    (intRange leftCol rightCol).any fun c =>
      decide (r < 0) || decide (GRID_ROWS ≤ r) || decide (c < 0) || decide (GRID_COLS ≤ c) ||
        decide (tileAtD m r c ≠ TileType.Empty)

/-- The tile-sized rectangle of a bomb:
`{ x: b.x - TILE_SIZE/2, y: b.y - TILE_SIZE/2, w: TILE_SIZE, h: TILE_SIZE }`. -/

def bombRect (b : Bomb) : Rect :=
  ⟨b.x - Q2.ofQ (TILE_SIZE / 2), b.y - Q2.ofQ (TILE_SIZE / 2), Q2.ofQ TILE_SIZE, Q2.ofQ TILE_SIZE⟩

/-- The bomb section of `isCollision`: a bomb blocks when the target
rectangle overlaps it and the current rectangle does not (`continue` on the
already-overlapping case). -/

def bombsBlock (bombs : List Bomb) (pRect curRect : Rect) : Bool :=
  bombs.any fun b => rectIntersect pRect (bombRect b) && !rectIntersect curRect (bombRect b)

/-- `isCollision(targetX, targetY, w, h, currentX, currentY)`. -/

def isCollision (m : Grid) (bombs : List Bomb) (targetX targetY : Q2) (w h : ℚ)
    (currentX currentY : Q2) : Bool :=
  wallsBlock m targetX targetY w h ||
    bombsBlock bombs (centerRect targetX targetY w h) (centerRect currentX currentY w h)

/-- The X-axis block of the player movement (`// X Axis with Corner Sliding`):
try the full horizontal displacement `dx`; on a block, nudge vertically by
`speed` toward the lane centreline when within the 20 px snap threshold.
Returns the updated `(x, y)`. -/

def tryMoveX (m : Grid) (bombs : List Bomb) (p : Player) (dx : Q2) : Q2 × Q2 :=
  let nextX := p.x + dx
  if !isCollision m bombs nextX p.y p.width p.height p.x p.y then (nextX, p.y)
  else
    let gridY := Q2.floorZ (p.y / Q2.ofQ TILE_SIZE)
    let centerY := Q2.ofQ ((gridY : ℚ) * TILE_SIZE + TILE_SIZE / 2)
    let offset := p.y - centerY
    if absLtB offset 20 then
      if Q2.posB offset then
        if !isCollision m bombs nextX (p.y - Q2.ofQ p.speed) p.width p.height p.x p.y then
          (p.x, p.y - Q2.ofQ p.speed)
        else (p.x, p.y)
      else if Q2.posB (-offset) then
        if !isCollision m bombs nextX (p.y + Q2.ofQ p.speed) p.width p.height p.x p.y then
          (p.x, p.y + Q2.ofQ p.speed)
        else (p.x, p.y)
      else (p.x, p.y)
    else (p.x, p.y)

/-- The Y-axis block of the player movement (`// Y Axis with Corner Sliding`),
run after the X block on the already-updated position. -/

def tryMoveY (m : Grid) (bombs : List Bomb) (p : Player) (dy : Q2) : Q2 × Q2 :=
  let nextY := p.y + dy
  if !isCollision m bombs p.x nextY p.width p.height p.x p.y then (p.x, nextY)
  else
    let gridX := Q2.floorZ (p.x / Q2.ofQ TILE_SIZE)
    let centerX := Q2.ofQ ((gridX : ℚ) * TILE_SIZE + TILE_SIZE / 2)
    let offset := p.x - centerX
    if absLtB offset 20 then
      if Q2.posB offset then
        if !isCollision m bombs (p.x - Q2.ofQ p.speed) nextY p.width p.height p.x p.y then
          (p.x - Q2.ofQ p.speed, p.y)
        else (p.x, p.y)
      else if Q2.posB (-offset) then
        if !isCollision m bombs (p.x + Q2.ofQ p.speed) nextY p.width p.height p.x p.y then
          (p.x + Q2.ofQ p.speed, p.y)
        else (p.x, p.y)
      else (p.x, p.y)
    else (p.x, p.y)

/-- The `// Player Move` section of `update`: derive `(dx, dy)` from the
held arrow keys, normalise on diagonal input, then resolve the X axis and
the Y axis in order (the Y axis sees the X-updated position). -/

def stepPlayerMove (inp : Inputs) (st : GameState) : GameState :=
  let player := st.player
  let dy0 : ℚ := 0
  let dx0 : ℚ := 0
  let dy1 := if inp.up then dy0 - player.speed else dy0
  let dy2 := if inp.down then dy1 + player.speed else dy1
  let dx1 := if inp.left then dx0 - player.speed else dx0
  let dx2 := if inp.right then dx1 + player.speed else dx1
  let dxy : Q2 × Q2 :=
    if dx2 ≠ 0 ∧ dy2 ≠ 0 then
      let len := jsHypot (Q2.ofQ dx2) (Q2.ofQ dy2)
      (Q2.ofQ dx2 / len * Q2.ofQ player.speed, Q2.ofQ dy2 / len * Q2.ofQ player.speed)
    else (Q2.ofQ dx2, Q2.ofQ dy2)
  let xy1 :=
    if dxy.1 ≠ 0 then tryMoveX st.map st.bombs player dxy.1
    else (player.x, player.y)
  let xy2 :=
    if dxy.2 ≠ 0 then tryMoveY st.map st.bombs { player with x := xy1.1, y := xy1.2 } dxy.2
    else xy1
  { st with player := { player with x := xy2.1, y := xy2.2 } }

/-- `placeBomb()`: rejected when `bombCount >= maxBombs`; otherwise the new
bomb is anchored to the centre of the player's current cell unless some
live bomb already occupies that cell (the dedup check), in which case
nothing changes. -/

def placeBomb (now : ℤ) (st : GameState) : GameState :=
  let player := st.player
  if player.bombCount ≥ player.maxBombs then st
  else
    let gridPos := getGridPos player.x player.y
    let bombX := Q2.ofQ ((gridPos.c : ℚ) * TILE_SIZE + TILE_SIZE / 2)
    let bombY := Q2.ofQ ((gridPos.r : ℚ) * TILE_SIZE + TILE_SIZE / 2)
    let occupied := st.bombs.any fun b =>
      let bPos := getGridPos b.x b.y
      decide (bPos.r = gridPos.r) && decide (bPos.c = gridPos.c)
    if occupied then st
    else
      { st with
        bombs := st.bombs ++
          [{ id := now, x := bombX, y := bombY, timer := BOMB_TIMER_MS,
             range := player.blastRadius, ownerId := "player" }],
        player := { player with bombCount := player.bombCount + 1 } }

/-- One explosion ray of `explodeBomb` (`for (let i = 1; i <= bomb.range; i++)`
in direction `(dr, dc)` from `(r, c)`): stops without adding the cell on
leaving the grid or on a `HardWall`; adds the cell and continues on `Empty`;
adds the cell, converts the tile to `Empty` and stops on a `SoftWall`.
Returns the particles `{x: col, y: row}` in outward order and the updated
grid. -/

def castRay (m : Grid) (r c dr dc : ℤ) : ℕ → List (ℤ × ℤ) × Grid
  | 0 => ([], m)
  | steps + 1 =>
    let r' := r + dr
    let c' := c + dc
    if r' < 0 ∨ GRID_ROWS ≤ r' ∨ c' < 0 ∨ GRID_COLS ≤ c' then ([], m)
    else
      let tile := tileAtD m r' c'
      if tile = TileType.HardWall then ([], m)
      else if tile = TileType.SoftWall then ([(c', r')], setTile m r' c' TileType.Empty)
      else
        let rest := castRay m r' c' dr dc steps
        ((c', r') :: rest.1, rest.2)

/-- The `dirs.forEach` of `explodeBomb`: the four rays in source order
(up, down, left, right), each cast on the grid left by the previous one. -/

def explodeDirs (m : Grid) (cr cc : ℤ) (range : ℕ) : List (ℤ × ℤ) × Grid :=
  let d1 := castRay m cr cc (-1) 0 range
  let d2 := castRay d1.2 cr cc 1 0 range
  let d3 := castRay d2.2 cr cc 0 (-1) range
  let d4 := castRay d3.2 cr cc 0 1 range
  (d1.1 ++ d2.1 ++ d3.1 ++ d4.1, d4.2)

/-- `explodeBomb(bomb, index)` minus the `splice` (the removal from
`bombsRef` is performed by the caller loop, `stepBombsAux`): decrement the
player's `bombCount` when the bomb is player-owned, cast the four rays from
the bomb's cell (the centre cell is the first particle), and push the new
explosion. -/

def explodeEffects (bomb : Bomb) (now : ℤ) (st : GameState) : GameState :=
  let player :=
    if bomb.ownerId = "player" then { st.player with bombCount := st.player.bombCount - 1 }
    else st.player
  let center := getGridPos bomb.x bomb.y
  let res := explodeDirs st.map center.r center.c bomb.range
  let particles := (center.c, center.r) :: res.1
  { st with
    map := res.2,
    player := player,
    explosions := st.explosions ++
      [{ id := now, timer := EXPLOSION_DURATION_MS,
         particles := particles.map fun p => { x := p.1, y := p.2, alpha := 1 } }] }

/-- The `// Bombs` loop of `update`, which walks `bombsRef` from the last
index down to 0, decrements each timer by `dt` and detonates (splicing the
bomb out) at `timer <= 0`.  The argument list is the bomb list reversed
(highest index first); surviving bombs are accumulated in `st.bombs`,
which restores the original order. -/

def stepBombsAux (dt : ℚ) (now : ℤ) : List Bomb → GameState → GameState
  | [], st => st
  | b :: rest, st =>
    let b' : Bomb := { b with timer := b.timer - dt }
    if b'.timer ≤ 0 then stepBombsAux dt now rest (explodeEffects b' now st)
    else stepBombsAux dt now rest { st with bombs := b' :: st.bombs }

/-- The `// Bombs` loop of `update`. -/

def stepBombs (dt : ℚ) (now : ℤ) (st : GameState) : GameState :=
  stepBombsAux dt now st.bombs.reverse { st with bombs := [] }

/-- The body of `exp.particles.forEach` in `update`: an active particle
cell kills the player on grid-cell coincidence (sets `alive = false` and
the status to `Lost`) and splices out every enemy on that cell. -/

def applyParticle (p : ExplosionParticle) (st : GameState) : GameState :=
  let pGrid := getGridPos st.player.x st.player.y
  let hit := pGrid.r = p.y ∧ pGrid.c = p.x
  { st with
    player := if hit then { st.player with alive := false } else st.player,
    status := if hit then GameStatus.Lost else st.status,
    enemies := st.enemies.filter fun e =>
      let eGrid := getGridPos e.x e.y
      !(decide (eGrid.r = p.y) && decide (eGrid.c = p.x)) }

/-- The `// Explosions` loop of `update` (last index down to 0): decrement
each timer by `dt`; an expired explosion is spliced out and skipped, an
active one stays and applies all its particles.  As in `stepBombsAux`, the
argument is the reversed explosion list and survivors accumulate in
`st.explosions`. -/

def stepExplosionsAux (dt : ℚ) : List Explosion → GameState → GameState
  | [], st => st
  | e :: rest, st =>
    let e' : Explosion := { e with timer := e.timer - dt }
    if e'.timer ≤ 0 then stepExplosionsAux dt rest st
    else
      stepExplosionsAux dt rest
        (e'.particles.foldl (fun s p => applyParticle p s) { st with explosions := e' :: st.explosions })

/-- The `// Explosions` loop of `update`. -/

def stepExplosions (dt : ℚ) (st : GameState) : GameState :=
  stepExplosionsAux dt st.explosions.reverse { st with explosions := [] }

/-- The random draws one enemy consumes in one tick: the direction index
picked on a blocked move, the outcome of the `Math.random() < 0.01`
redirection roll, and the direction index it picks. -/

structure EnemyRand where
  redirect : Fin 4
  changeDir : Bool
  redirect2 : Fin 4

/-- The literal `dirs` array of the enemy AI. -/

def dirList : List Dir2 := [⟨0, -1⟩, ⟨0, 1⟩, ⟨-1, 0⟩, ⟨1, 0⟩]

/-- `dirs[Math.floor(Math.random() * dirs.length)]`. -/

def pickDir (i : Fin 4) : Dir2 := dirList.getD i.val ⟨1, 0⟩

/-- `Math.hypot(px - ex, py - ey) < t` for the contact threshold
`t = TILE_SIZE * 0.7 > 0`, embedded as the equivalent exact comparison of
squares. -/

def touchesPlayer (px py ex ey : Q2) : Bool :=
  Q2.ltB ((px - ex) * (px - ex) + (py - ey) * (py - ey))
    (Q2.ofQ ((TILE_SIZE * (7 / 10)) * (TILE_SIZE * (7 / 10))))

/-- The body of `enemiesRef.current.forEach`: contact check against the
player (fixed during the loop), then one step of `speed` along the current
direction validated through `isCollision` (a new random direction and no
movement on a block), then the 1 % random redirection.  Returns the updated
enemy and whether it touched the player. -/

def stepEnemy (m : Grid) (bombs : List Bomb) (px py : Q2) (rnd : EnemyRand) (e : Enemy) :
    Enemy × Bool :=
  let touched := touchesPlayer px py e.x e.y
  let nextX := e.x + Q2.ofQ ((e.direction.x : ℚ) * e.speed)
  let nextY := e.y + Q2.ofQ ((e.direction.y : ℚ) * e.speed)
  let e1 :=
    if isCollision m bombs nextX nextY e.width e.height e.x e.y then
      { e with direction := pickDir rnd.redirect }
    else { e with x := nextX, y := nextY }
  let e2 := if rnd.changeDir then { e1 with direction := pickDir rnd.redirect2 } else e1
  (e2, touched)

/-- The `// Enemies` loop of `update`: every enemy is stepped; if any was
in contact with the player, the player is marked dead and the status set to
`Lost`. -/

def stepEnemies (rnd : ℕ → EnemyRand) (st : GameState) : GameState :=
  let results := st.enemies.enum.map fun ie => stepEnemy st.map st.bombs st.player.x st.player.y (rnd ie.1) ie.2
  let anyTouch := results.any fun r => r.2
  { st with
    enemies := results.map fun r => r.1,
    player := if anyTouch then { st.player with alive := false } else st.player,
    status := if anyTouch then GameStatus.Lost else st.status }

/-- `update(dt)`: the per-tick transition.  Returns the state unchanged
unless the status at tick entry is `Playing`.  Note the final win check
compares the *entry* status (the closure capture of the React `gameStatus`
variable), which is necessarily `Playing` on this path, so it fires even
when a `Lost` transition occurred earlier in the same tick. -/

def update (st : GameState) (inp : Inputs) (dt : ℚ) (now : ℤ) (rnd : ℕ → EnemyRand) :
    GameState :=
  if st.status ≠ GameStatus.Playing then st
  else
    let st1 := stepPlayerMove inp st
    let st2 := if inp.space then placeBomb now st1 else st1
    let st3 := stepBombs dt now st2
    let st4 := stepExplosions dt st3
    let st5 := stepEnemies rnd st4
    if st5.enemies.length = 0 ∧ st.status = GameStatus.Playing then
      { st5 with status := GameStatus.Won }
    else st5

/-- The map generation of `initGame`: `HardWall` on the outer border and on
every even-even cell; otherwise the three safe-zone cells
`(1,1), (1,2), (2,1)` are `Empty`, and every other cell is `SoftWall` when
the per-cell `Math.random() < 0.3` oracle `soft` fires, else `Empty`. -/

def genMap (soft : ℕ → ℕ → Bool) : Grid :=
  (List.range GRID_ROWS.toNat).map fun r =>
    (List.range GRID_COLS.toNat).map fun c =>
      if r = 0 ∨ r = GRID_ROWS.toNat - 1 ∨ c = 0 ∨ c = GRID_COLS.toNat - 1 ∨
          (r % 2 = 0 ∧ c % 2 = 0) then
        TileType.HardWall
      else
        let isSafeZone := (r = 1 ∧ c = 1) ∨ (r = 1 ∧ c = 2) ∨ (r = 2 ∧ c = 1)
        if ¬isSafeZone ∧ soft r c then TileType.SoftWall else TileType.Empty

/-- The fresh player of `initGame`. -/

def initialPlayer : Player :=
  { x := Q2.ofQ (TILE_SIZE * (3 / 2)), y := Q2.ofQ (TILE_SIZE * (3 / 2)),
    width := HITBOX_SIZE, height := HITBOX_SIZE, alive := true, speed := 7 / 2,
    bombCount := 0, maxBombs := 3, blastRadius := 2 }

/-- The enemy-spawn retry loop of `initGame`
(`while (enemyCount > 0 && attempts < 100)`): each attempt draws a cell
`(r, c)` with `r, c ∈ [1, GRID_ROWS - 2]` (the oracle value is reduced
`mod (GRID_ROWS - 2)` to model `Math.floor(Math.random() * (GRID_ROWS - 2)) + 1`)
and an `id` draw, and spawns an enemy at the cell centre when the cell is
`Empty` and outside the 5×5 spawn corner (`r > 4 || c > 4`). -/

def spawnAux (m : Grid) (rand : ℕ → ℕ × ℕ × ℚ) : ℕ → ℕ → ℕ → List Enemy
  | 0, _, _ => []
  | _, 0, _ => []
  | fuel + 1, count + 1, attempt =>
    let z := rand attempt
    let r : ℕ := z.1 % (GRID_ROWS.toNat - 2) + 1
    let c : ℕ := z.2.1 % (GRID_COLS.toNat - 2) + 1
    if tileAtD m (r : ℤ) (c : ℤ) = TileType.Empty ∧ (4 < r ∨ 4 < c) then
      { id := z.2.2,
        x := Q2.ofQ ((c : ℚ) * TILE_SIZE + TILE_SIZE / 2),
        y := Q2.ofQ ((r : ℚ) * TILE_SIZE + TILE_SIZE / 2),
        width := HITBOX_SIZE, height := HITBOX_SIZE, alive := true, speed := 2,
        direction := ⟨1, 0⟩, changeDirTimer := 0 } ::
        spawnAux m rand fuel count (attempt + 1)
    else spawnAux m rand fuel (count + 1) (attempt + 1)

/-- `initGame()`: generate the map, reset the player, spawn 3 enemies
(at most 100 attempts), clear bombs and explosions, status `Playing`. -/

def initGame (soft : ℕ → ℕ → Bool) (rand : ℕ → ℕ × ℕ × ℚ) : GameState :=
  let m := genMap soft
  { map := m, player := initialPlayer, bombs := [], explosions := [],
    enemies := spawnAux m rand 100 3 0, status := GameStatus.Playing }

/-- The component's initial refs before any round is started: empty map
and collections, default player, status `Menu`. -/

def menuState : GameState :=
  { map := [],
    player :=
      { x := Q2.ofQ TILE_SIZE, y := Q2.ofQ TILE_SIZE, width := HITBOX_SIZE,
        height := HITBOX_SIZE, alive := true, speed := 7 / 2, bombCount := 0,
        maxBombs := 3, blastRadius := 2 },
    bombs := [], explosions := [], enemies := [], status := GameStatus.Menu }

/-- The states the engine can be in: the pre-start `Menu` state, any state
produced by `initGame` (start or restart discards the previous state), and
anything reachable from those through ticks of `update`. -/

inductive Reachable : GameState → Prop
  | menu : Reachable menuState
  | init : ∀ soft rand, Reachable (initGame soft rand)
  | step : ∀ st inp dt now rnd, Reachable st → Reachable (update st inp dt now rnd)

/-- The grid cell of a bomb, `getGridPos(b.x, b.y)`. -/

def bombCell (b : Bomb) : GridPos := getGridPos b.x b.y

/-- `bombsRef.current[i].timer -= dt`. -/

def decBomb (dt : ℚ) (b : Bomb) : Bomb := { b with timer := b.timer - dt }

/-- A bomb survives the tick when its decremented timer is still positive. -/

def bombAliveB (b : Bomb) : Bool := !decide (b.timer ≤ 0)

/-- `explosionsRef.current[i].timer -= dt`. -/

def decExp (dt : ℚ) (e : Explosion) : Explosion := { e with timer := e.timer - dt }

/-- An explosion survives the tick when its decremented timer is still
positive. -/

def expAliveB (e : Explosion) : Bool := !decide (e.timer ≤ 0)

/-- The bookkeeping invariant tying the player's bomb counter to the live
bomb collection: `maxBombs` is the constant 3, the counter equals the
number of live bombs, at most 3 bombs are live, every live bomb is owned by
the player, and no two live bombs share a grid cell. -/

def Inv (st : GameState) : Prop :=
  st.player.maxBombs = 3 ∧
  st.player.bombCount = (st.bombs.length : ℤ) ∧
  st.bombs.length ≤ 3 ∧
  (∀ b ∈ st.bombs, b.ownerId = "player") ∧
  st.bombs.Pairwise fun b1 b2 => bombCell b1 ≠ bombCell b2

/-- The shape invariant of the generated tile matrix: `GRID_ROWS` rows of
`GRID_COLS` tiles each. -/

def GridWF (m : Grid) : Prop :=
  m.length = GRID_ROWS.toNat ∧ ∀ row ∈ m, row.length = GRID_COLS.toNat

/-- The `dirs` array of `explodeBomb`, as `(dr, dc)` pairs in source order. -/

def dirPairs : List (ℤ × ℤ) := [(-1, 0), (1, 0), (0, -1), (0, 1)]

/-- The `Math.random() < 0.3` oracle that never fires: a maze with no soft
walls. -/

def softNone : ℕ → ℕ → Bool := fun _ _ => false

/-- The generated maze with no soft walls. -/

def mapOpen : Grid := genMap softNone

/-- A fixed enemy-AI randomness oracle. -/

def rndNone : ℕ → EnemyRand := fun _ => ⟨0, false, 0⟩

/-- A fixed enemy-spawn oracle: every attempt draws cell `(10, 10)`. -/

def oracleSpawn : ℕ → ℕ × ℕ × ℚ := fun _ => (9, 9, 0)

/-- No key held. -/

def inpNone : Inputs := ⟨false, false, false, false, false⟩

/-- Only ArrowRight held. -/

def inpRight : Inputs := ⟨false, false, false, true, false⟩

/-- An enemy far from the player, at the centre of cell `(13, 13)`. -/

def enemyFar : Enemy :=
  { id := 0, x := Q2.ofQ 648, y := Q2.ofQ 648, width := HITBOX_SIZE, height := HITBOX_SIZE,
    alive := true, speed := 2, direction := ⟨1, 0⟩, changeDirTimer := 0 }

/-- A mid-round state: fresh player at the centre of cell `(1, 1)`, open
maze, one far-away enemy, no bombs or explosions. -/

def c2Start : GameState :=
  { map := mapOpen, player := initialPlayer, bombs := [], explosions := [],
    enemies := [enemyFar], status := GameStatus.Playing }

/-- An enemy at the centre of cell `(1, 3)` (pixel `(168, 72)`). -/

def c3Enemy : Enemy :=
  { id := 0, x := Q2.ofQ 168, y := Q2.ofQ 72, width := HITBOX_SIZE, height := HITBOX_SIZE,
    alive := true, speed := 2, direction := ⟨1, 0⟩, changeDirTimer := 0 }

/-- An active explosion (500 ms left of its 600 ms life) covering the
player's cell `(1, 1)` and the enemy's cell `(1, 3)` — e.g. from a bomb
detonated at `(1, 2)`. -/

def c3Explosion : Explosion := { id := 0, timer := 500, particles := [⟨1, 1, 1⟩, ⟨3, 1, 1⟩] }

/-- The state in which one explosion kills both the player and the last
enemy in the same tick. -/

def c3Start : GameState :=
  { map := mapOpen, player := initialPlayer, bombs := [], explosions := [c3Explosion],
    enemies := [c3Enemy], status := GameStatus.Playing }

/-- A terminal state (round already lost). -/

def lostState : GameState := { c3Start with status := GameStatus.Lost }

/-- A live bomb at the centre of cell `(1, 1)` (pixel `(72, 72)`). -/

def bombAt11 : Bomb :=
  { id := 0, x := Q2.ofQ 72, y := Q2.ofQ 72, timer := BOMB_TIMER_MS, range := 2,
    ownerId := "player" }

/-! ## Lemmas and claim theorems -/

@[simp] lemma Q2.a_add (x y : Q2) : (x + y).a = x.a + y.a := rfl

@[simp] lemma Q2.b_add (x y : Q2) : (x + y).b = x.b + y.b := rfl

@[simp] lemma Q2.a_sub (x y : Q2) : (x - y).a = x.a - y.a := rfl

@[simp] lemma Q2.b_sub (x y : Q2) : (x - y).b = x.b - y.b := rfl

@[simp] lemma Q2.a_neg (x : Q2) : (-x).a = -x.a := rfl

@[simp] lemma Q2.b_neg (x : Q2) : (-x).b = -x.b := rfl

@[simp] lemma Q2.a_mul (x y : Q2) : (x * y).a = x.a * y.a + 2 * x.b * y.b := rfl

@[simp] lemma Q2.b_mul (x y : Q2) : (x * y).b = x.a * y.b + x.b * y.a := rfl

@[simp] lemma Q2.a_ofQ (q : ℚ) : (Q2.ofQ q).a = q := rfl

@[simp] lemma Q2.b_ofQ (q : ℚ) : (Q2.ofQ q).b = 0 := rfl

lemma Q2.div_def (x y : Q2) : x / y = x * Q2.inv y := rfl

lemma Q2.ofQ_div_ofQ (p q : ℚ) : Q2.ofQ p / Q2.ofQ q = Q2.ofQ (p / q) := by
  ext
  · simp only [Q2.div_def, Q2.inv, Q2.a_mul, Q2.b_mul, Q2.a_ofQ, Q2.b_ofQ]
    rcases eq_or_ne q 0 with hq | hq
    · simp [hq]
    · field_simp
      ring
  · simp [Q2.div_def, Q2.inv]

lemma Q2.floorZ_of_b_eq_zero (x : Q2) (h : x.b = 0) : Q2.floorZ x = ⌊x.a⌋ := by
  simp [Q2.floorZ, h]

lemma getGridPos_ofQ (px py : ℚ) :
    getGridPos (Q2.ofQ px) (Q2.ofQ py) = ⟨⌊px / TILE_SIZE⌋, ⌊py / TILE_SIZE⌋⟩ := by
  unfold getGridPos
  rw [Q2.ofQ_div_ofQ, Q2.ofQ_div_ofQ,
    Q2.floorZ_of_b_eq_zero _ (Q2.b_ofQ _), Q2.floorZ_of_b_eq_zero _ (Q2.b_ofQ _)]
  rfl

lemma floor_tile_center (k : ℤ) : ⌊(((k : ℚ) * TILE_SIZE + TILE_SIZE / 2) / TILE_SIZE)⌋ = k := by
  have h : (((k : ℚ) * TILE_SIZE + TILE_SIZE / 2) / TILE_SIZE) = (k : ℚ) + 1 / 2 := by
    rw [TILE_SIZE]
    ring
  rw [h, Int.floor_int_add]
  norm_num

lemma bombCell_center (idv : ℤ) (r c : ℤ) (t : ℚ) (n : ℕ) (o : String) :
    bombCell
      { id := idv, x := Q2.ofQ ((c : ℚ) * TILE_SIZE + TILE_SIZE / 2),
        y := Q2.ofQ ((r : ℚ) * TILE_SIZE + TILE_SIZE / 2), timer := t, range := n,
        ownerId := o } = ⟨c, r⟩ := by
  unfold bombCell
  rw [getGridPos_ofQ, floor_tile_center, floor_tile_center]

@[simp] lemma stepPlayerMove_map (inp : Inputs) (st : GameState) :
    (stepPlayerMove inp st).map = st.map := rfl

@[simp] lemma stepPlayerMove_bombs (inp : Inputs) (st : GameState) :
    (stepPlayerMove inp st).bombs = st.bombs := rfl

@[simp] lemma stepPlayerMove_explosions (inp : Inputs) (st : GameState) :
    (stepPlayerMove inp st).explosions = st.explosions := rfl

@[simp] lemma stepPlayerMove_enemies (inp : Inputs) (st : GameState) :
    (stepPlayerMove inp st).enemies = st.enemies := rfl

@[simp] lemma stepPlayerMove_status (inp : Inputs) (st : GameState) :
    (stepPlayerMove inp st).status = st.status := rfl

@[simp] lemma stepPlayerMove_bombCount (inp : Inputs) (st : GameState) :
    (stepPlayerMove inp st).player.bombCount = st.player.bombCount := rfl

@[simp] lemma stepPlayerMove_maxBombs (inp : Inputs) (st : GameState) :
    (stepPlayerMove inp st).player.maxBombs = st.player.maxBombs := rfl

@[simp] lemma stepPlayerMove_alive (inp : Inputs) (st : GameState) :
    (stepPlayerMove inp st).player.alive = st.player.alive := rfl

@[simp] lemma explodeEffects_bombs (b : Bomb) (now : ℤ) (st : GameState) :
    (explodeEffects b now st).bombs = st.bombs := rfl

@[simp] lemma explodeEffects_enemies (b : Bomb) (now : ℤ) (st : GameState) :
    (explodeEffects b now st).enemies = st.enemies := rfl

@[simp] lemma explodeEffects_status (b : Bomb) (now : ℤ) (st : GameState) :
    (explodeEffects b now st).status = st.status := rfl

@[simp] lemma explodeEffects_player_x (b : Bomb) (now : ℤ) (st : GameState) :
    (explodeEffects b now st).player.x = st.player.x := by
  unfold explodeEffects
  by_cases h : b.ownerId = "player" <;> simp [h]

@[simp] lemma explodeEffects_player_y (b : Bomb) (now : ℤ) (st : GameState) :
    (explodeEffects b now st).player.y = st.player.y := by
  unfold explodeEffects
  by_cases h : b.ownerId = "player" <;> simp [h]

@[simp] lemma explodeEffects_alive (b : Bomb) (now : ℤ) (st : GameState) :
    (explodeEffects b now st).player.alive = st.player.alive := by
  unfold explodeEffects
  by_cases h : b.ownerId = "player" <;> simp [h]

@[simp] lemma explodeEffects_maxBombs (b : Bomb) (now : ℤ) (st : GameState) :
    (explodeEffects b now st).player.maxBombs = st.player.maxBombs := by
  unfold explodeEffects
  by_cases h : b.ownerId = "player" <;> simp [h]

lemma explodeEffects_bombCount (b : Bomb) (now : ℤ) (st : GameState) :
    (explodeEffects b now st).player.bombCount =
      if b.ownerId = "player" then st.player.bombCount - 1 else st.player.bombCount := by
  unfold explodeEffects
  by_cases h : b.ownerId = "player" <;> simp [h]

@[simp] lemma applyParticle_map (p : ExplosionParticle) (st : GameState) :
    (applyParticle p st).map = st.map := rfl

@[simp] lemma applyParticle_bombs (p : ExplosionParticle) (st : GameState) :
    (applyParticle p st).bombs = st.bombs := rfl

@[simp] lemma applyParticle_explosions (p : ExplosionParticle) (st : GameState) :
    (applyParticle p st).explosions = st.explosions := rfl

@[simp] lemma applyParticle_player_x (p : ExplosionParticle) (st : GameState) :
    (applyParticle p st).player.x = st.player.x := by
  unfold applyParticle
  dsimp only
  split <;> rfl

@[simp] lemma applyParticle_player_y (p : ExplosionParticle) (st : GameState) :
    (applyParticle p st).player.y = st.player.y := by
  unfold applyParticle
  dsimp only
  split <;> rfl

@[simp] lemma applyParticle_bombCount (p : ExplosionParticle) (st : GameState) :
    (applyParticle p st).player.bombCount = st.player.bombCount := by
  unfold applyParticle
  dsimp only
  split <;> rfl

@[simp] lemma applyParticle_maxBombs (p : ExplosionParticle) (st : GameState) :
    (applyParticle p st).player.maxBombs = st.player.maxBombs := by
  unfold applyParticle
  dsimp only
  split <;> rfl

@[simp] lemma stepEnemies_map (rnd : ℕ → EnemyRand) (st : GameState) :
    (stepEnemies rnd st).map = st.map := rfl

@[simp] lemma stepEnemies_bombs (rnd : ℕ → EnemyRand) (st : GameState) :
    (stepEnemies rnd st).bombs = st.bombs := rfl

@[simp] lemma stepEnemies_explosions (rnd : ℕ → EnemyRand) (st : GameState) :
    (stepEnemies rnd st).explosions = st.explosions := rfl

@[simp] lemma stepEnemies_player_x (rnd : ℕ → EnemyRand) (st : GameState) :
    (stepEnemies rnd st).player.x = st.player.x := by
  unfold stepEnemies
  dsimp only
  split <;> rfl

@[simp] lemma stepEnemies_player_y (rnd : ℕ → EnemyRand) (st : GameState) :
    (stepEnemies rnd st).player.y = st.player.y := by
  unfold stepEnemies
  dsimp only
  split <;> rfl

@[simp] lemma stepEnemies_bombCount (rnd : ℕ → EnemyRand) (st : GameState) :
    (stepEnemies rnd st).player.bombCount = st.player.bombCount := by
  unfold stepEnemies
  dsimp only
  split <;> rfl

@[simp] lemma stepEnemies_maxBombs (rnd : ℕ → EnemyRand) (st : GameState) :
    (stepEnemies rnd st).player.maxBombs = st.player.maxBombs := by
  unfold stepEnemies
  dsimp only
  split <;> rfl

@[simp] lemma placeBomb_map (now : ℤ) (st : GameState) :
    (placeBomb now st).map = st.map := by
  unfold placeBomb
  dsimp only
  split
  · rfl
  · split <;> rfl

@[simp] lemma placeBomb_explosions (now : ℤ) (st : GameState) :
    (placeBomb now st).explosions = st.explosions := by
  unfold placeBomb
  dsimp only
  split
  · rfl
  · split <;> rfl

@[simp] lemma placeBomb_enemies (now : ℤ) (st : GameState) :
    (placeBomb now st).enemies = st.enemies := by
  unfold placeBomb
  dsimp only
  split
  · rfl
  · split <;> rfl

@[simp] lemma placeBomb_status (now : ℤ) (st : GameState) :
    (placeBomb now st).status = st.status := by
  unfold placeBomb
  dsimp only
  split
  · rfl
  · split <;> rfl

@[simp] lemma placeBomb_player_x (now : ℤ) (st : GameState) :
    (placeBomb now st).player.x = st.player.x := by
  unfold placeBomb
  dsimp only
  split
  · rfl
  · split <;> rfl

@[simp] lemma placeBomb_player_y (now : ℤ) (st : GameState) :
    (placeBomb now st).player.y = st.player.y := by
  unfold placeBomb
  dsimp only
  split
  · rfl
  · split <;> rfl

@[simp] lemma placeBomb_maxBombs (now : ℤ) (st : GameState) :
    (placeBomb now st).player.maxBombs = st.player.maxBombs := by
  unfold placeBomb
  dsimp only
  split
  · rfl
  · split <;> rfl

@[simp] lemma placeBomb_alive (now : ℤ) (st : GameState) :
    (placeBomb now st).player.alive = st.player.alive := by
  unfold placeBomb
  dsimp only
  split
  · rfl
  · split <;> rfl

lemma stepBombsAux_bombs (dt : ℚ) (now : ℤ) :
    ∀ (rev : List Bomb) (st : GameState),
      (stepBombsAux dt now rev st).bombs =
        ((rev.map (decBomb dt)).filter bombAliveB).reverse ++ st.bombs := by
  intro rev
  induction rev with
  | nil => intro st; simp [stepBombsAux]
  | cons b rest ih =>
    intro st
    by_cases h : b.timer - dt ≤ 0
    · rw [stepBombsAux]
      dsimp only
      rw [if_pos h, ih]
      simp [decBomb, bombAliveB, h]
    · rw [stepBombsAux]
      dsimp only
      rw [if_neg h, ih]
      simp [decBomb, bombAliveB, h]

lemma stepBombsAux_player_x (dt : ℚ) (now : ℤ) :
    ∀ (rev : List Bomb) (st : GameState),
      (stepBombsAux dt now rev st).player.x = st.player.x := by
  intro rev
  induction rev with
  | nil => intro st; simp [stepBombsAux]
  | cons b rest ih =>
    intro st
    rw [stepBombsAux]
    dsimp only
    split <;> rw [ih] <;> simp

lemma stepBombsAux_player_y (dt : ℚ) (now : ℤ) :
    ∀ (rev : List Bomb) (st : GameState),
      (stepBombsAux dt now rev st).player.y = st.player.y := by
  intro rev
  induction rev with
  | nil => intro st; simp [stepBombsAux]
  | cons b rest ih =>
    intro st
    rw [stepBombsAux]
    dsimp only
    split <;> rw [ih] <;> simp

lemma stepBombsAux_alive (dt : ℚ) (now : ℤ) :
    ∀ (rev : List Bomb) (st : GameState),
      (stepBombsAux dt now rev st).player.alive = st.player.alive := by
  intro rev
  induction rev with
  | nil => intro st; simp [stepBombsAux]
  | cons b rest ih =>
    intro st
    rw [stepBombsAux]
    dsimp only
    split <;> rw [ih] <;> simp

lemma stepBombsAux_maxBombs (dt : ℚ) (now : ℤ) :
    ∀ (rev : List Bomb) (st : GameState),
      (stepBombsAux dt now rev st).player.maxBombs = st.player.maxBombs := by
  intro rev
  induction rev with
  | nil => intro st; simp [stepBombsAux]
  | cons b rest ih =>
    intro st
    rw [stepBombsAux]
    dsimp only
    split <;> rw [ih] <;> simp

lemma stepBombsAux_enemies (dt : ℚ) (now : ℤ) :
    ∀ (rev : List Bomb) (st : GameState),
      (stepBombsAux dt now rev st).enemies = st.enemies := by
  intro rev
  induction rev with
  | nil => intro st; simp [stepBombsAux]
  | cons b rest ih =>
    intro st
    rw [stepBombsAux]
    dsimp only
    split <;> rw [ih] <;> simp

lemma stepBombsAux_status (dt : ℚ) (now : ℤ) :
    ∀ (rev : List Bomb) (st : GameState),
      (stepBombsAux dt now rev st).status = st.status := by
  intro rev
  induction rev with
  | nil => intro st; simp [stepBombsAux]
  | cons b rest ih =>
    intro st
    rw [stepBombsAux]
    dsimp only
    split <;> rw [ih] <;> simp

lemma stepBombsAux_bombCount (dt : ℚ) (now : ℤ) :
    ∀ (rev : List Bomb) (st : GameState), (∀ b ∈ rev, b.ownerId = "player") →
      (stepBombsAux dt now rev st).player.bombCount =
        st.player.bombCount -
          ((rev.map (decBomb dt)).countP (fun b => decide (b.timer ≤ 0)) : ℤ) := by
  intro rev
  induction rev with
  | nil => intro st _; simp [stepBombsAux]
  | cons b rest ih =>
    intro st hown
    have hb : b.ownerId = "player" := hown b (List.mem_cons_self _ _)
    have hrest : ∀ x ∈ rest, x.ownerId = "player" := fun x hx => hown x (List.mem_cons_of_mem _ hx)
    by_cases h : b.timer - dt ≤ 0
    · rw [stepBombsAux]
      dsimp only
      rw [if_pos h, ih _ hrest, explodeEffects_bombCount]
      have : ({ b with timer := b.timer - dt } : Bomb).ownerId = "player" := hb
      rw [if_pos this]
      simp only [List.map_cons, List.countP_cons, decBomb]
      simp only [h, decide_True]
      push_cast
      ring
    · rw [stepBombsAux]
      dsimp only
      rw [if_neg h, ih _ hrest]
      simp only [List.map_cons, List.countP_cons, decBomb]
      simp [h]

lemma stepBombs_bombs (dt : ℚ) (now : ℤ) (st : GameState) :
    (stepBombs dt now st).bombs = (st.bombs.map (decBomb dt)).filter bombAliveB := by
  unfold stepBombs
  rw [stepBombsAux_bombs]
  simp [← List.map_reverse, ← List.filter_reverse]

@[simp] lemma stepBombs_player_x (dt : ℚ) (now : ℤ) (st : GameState) :
    (stepBombs dt now st).player.x = st.player.x := by
  unfold stepBombs
  rw [stepBombsAux_player_x]

@[simp] lemma stepBombs_player_y (dt : ℚ) (now : ℤ) (st : GameState) :
    (stepBombs dt now st).player.y = st.player.y := by
  unfold stepBombs
  rw [stepBombsAux_player_y]

@[simp] lemma stepBombs_alive (dt : ℚ) (now : ℤ) (st : GameState) :
    (stepBombs dt now st).player.alive = st.player.alive := by
  unfold stepBombs
  rw [stepBombsAux_alive]

@[simp] lemma stepBombs_maxBombs (dt : ℚ) (now : ℤ) (st : GameState) :
    (stepBombs dt now st).player.maxBombs = st.player.maxBombs := by
  unfold stepBombs
  rw [stepBombsAux_maxBombs]

@[simp] lemma stepBombs_enemies (dt : ℚ) (now : ℤ) (st : GameState) :
    (stepBombs dt now st).enemies = st.enemies := by
  unfold stepBombs
  rw [stepBombsAux_enemies]

@[simp] lemma stepBombs_status (dt : ℚ) (now : ℤ) (st : GameState) :
    (stepBombs dt now st).status = st.status := by
  unfold stepBombs
  rw [stepBombsAux_status]

lemma stepBombs_bombCount (dt : ℚ) (now : ℤ) (st : GameState)
    (h : ∀ b ∈ st.bombs, b.ownerId = "player") :
    (stepBombs dt now st).player.bombCount =
      st.player.bombCount -
        ((st.bombs.map (decBomb dt)).countP (fun b => decide (b.timer ≤ 0)) : ℤ) := by
  unfold stepBombs
  rw [stepBombsAux_bombCount _ _ _ _ (fun b hb => h b (List.mem_reverse.mp hb))]
  simp [← List.map_reverse]

lemma foldl_applyParticle_bombs (ps : List ExplosionParticle) :
    ∀ st : GameState, (ps.foldl (fun s p => applyParticle p s) st).bombs = st.bombs := by
  induction ps with
  | nil => intro st; rfl
  | cons p rest ih => intro st; rw [List.foldl_cons, ih, applyParticle_bombs]

lemma foldl_applyParticle_explosions (ps : List ExplosionParticle) :
    ∀ st : GameState, (ps.foldl (fun s p => applyParticle p s) st).explosions = st.explosions := by
  induction ps with
  | nil => intro st; rfl
  | cons p rest ih => intro st; rw [List.foldl_cons, ih, applyParticle_explosions]

lemma foldl_applyParticle_player_x (ps : List ExplosionParticle) :
    ∀ st : GameState, (ps.foldl (fun s p => applyParticle p s) st).player.x = st.player.x := by
  induction ps with
  | nil => intro st; rfl
  | cons p rest ih => intro st; rw [List.foldl_cons, ih, applyParticle_player_x]

lemma foldl_applyParticle_player_y (ps : List ExplosionParticle) :
    ∀ st : GameState, (ps.foldl (fun s p => applyParticle p s) st).player.y = st.player.y := by
  induction ps with
  | nil => intro st; rfl
  | cons p rest ih => intro st; rw [List.foldl_cons, ih, applyParticle_player_y]

lemma foldl_applyParticle_bombCount (ps : List ExplosionParticle) :
    ∀ st : GameState,
      (ps.foldl (fun s p => applyParticle p s) st).player.bombCount = st.player.bombCount := by
  induction ps with
  | nil => intro st; rfl
  | cons p rest ih => intro st; rw [List.foldl_cons, ih, applyParticle_bombCount]

lemma foldl_applyParticle_maxBombs (ps : List ExplosionParticle) :
    ∀ st : GameState,
      (ps.foldl (fun s p => applyParticle p s) st).player.maxBombs = st.player.maxBombs := by
  induction ps with
  | nil => intro st; rfl
  | cons p rest ih => intro st; rw [List.foldl_cons, ih, applyParticle_maxBombs]

lemma stepExplosionsAux_explosions (dt : ℚ) :
    ∀ (rev : List Explosion) (st : GameState),
      (stepExplosionsAux dt rev st).explosions =
        ((rev.map (decExp dt)).filter expAliveB).reverse ++ st.explosions := by
  intro rev
  induction rev with
  | nil => intro st; simp [stepExplosionsAux]
  | cons e rest ih =>
    intro st
    by_cases h : e.timer - dt ≤ 0
    · rw [stepExplosionsAux]
      dsimp only
      rw [if_pos h, ih]
      simp [decExp, expAliveB, h]
    · rw [stepExplosionsAux]
      dsimp only
      rw [if_neg h, ih, foldl_applyParticle_explosions]
      simp [decExp, expAliveB, h]

lemma stepExplosionsAux_bombs (dt : ℚ) :
    ∀ (rev : List Explosion) (st : GameState),
      (stepExplosionsAux dt rev st).bombs = st.bombs := by
  intro rev
  induction rev with
  | nil => intro st; simp [stepExplosionsAux]
  | cons e rest ih =>
    intro st
    rw [stepExplosionsAux]
    dsimp only
    split
    · rw [ih]
    · rw [ih, foldl_applyParticle_bombs]

lemma stepExplosionsAux_player_x (dt : ℚ) :
    ∀ (rev : List Explosion) (st : GameState),
      (stepExplosionsAux dt rev st).player.x = st.player.x := by
  intro rev
  induction rev with
  | nil => intro st; simp [stepExplosionsAux]
  | cons e rest ih =>
    intro st
    rw [stepExplosionsAux]
    dsimp only
    split
    · rw [ih]
    · rw [ih, foldl_applyParticle_player_x]

lemma stepExplosionsAux_player_y (dt : ℚ) :
    ∀ (rev : List Explosion) (st : GameState),
      (stepExplosionsAux dt rev st).player.y = st.player.y := by
  intro rev
  induction rev with
  | nil => intro st; simp [stepExplosionsAux]
  | cons e rest ih =>
    intro st
    rw [stepExplosionsAux]
    dsimp only
    split
    · rw [ih]
    · rw [ih, foldl_applyParticle_player_y]

lemma stepExplosionsAux_bombCount (dt : ℚ) :
    ∀ (rev : List Explosion) (st : GameState),
      (stepExplosionsAux dt rev st).player.bombCount = st.player.bombCount := by
  intro rev
  induction rev with
  | nil => intro st; simp [stepExplosionsAux]
  | cons e rest ih =>
    intro st
    rw [stepExplosionsAux]
    dsimp only
    split
    · rw [ih]
    · rw [ih, foldl_applyParticle_bombCount]

lemma stepExplosionsAux_maxBombs (dt : ℚ) :
    ∀ (rev : List Explosion) (st : GameState),
      (stepExplosionsAux dt rev st).player.maxBombs = st.player.maxBombs := by
  intro rev
  induction rev with
  | nil => intro st; simp [stepExplosionsAux]
  | cons e rest ih =>
    intro st
    rw [stepExplosionsAux]
    dsimp only
    split
    · rw [ih]
    · rw [ih, foldl_applyParticle_maxBombs]

lemma stepExplosions_explosions (dt : ℚ) (st : GameState) :
    (stepExplosions dt st).explosions = (st.explosions.map (decExp dt)).filter expAliveB := by
  unfold stepExplosions
  rw [stepExplosionsAux_explosions]
  simp [← List.map_reverse, ← List.filter_reverse]

@[simp] lemma stepExplosions_bombs (dt : ℚ) (st : GameState) :
    (stepExplosions dt st).bombs = st.bombs := by
  unfold stepExplosions
  rw [stepExplosionsAux_bombs]

@[simp] lemma stepExplosions_player_x (dt : ℚ) (st : GameState) :
    (stepExplosions dt st).player.x = st.player.x := by
  unfold stepExplosions
  rw [stepExplosionsAux_player_x]

@[simp] lemma stepExplosions_player_y (dt : ℚ) (st : GameState) :
    (stepExplosions dt st).player.y = st.player.y := by
  unfold stepExplosions
  rw [stepExplosionsAux_player_y]

@[simp] lemma stepExplosions_bombCount (dt : ℚ) (st : GameState) :
    (stepExplosions dt st).player.bombCount = st.player.bombCount := by
  unfold stepExplosions
  rw [stepExplosionsAux_bombCount]

@[simp] lemma stepExplosions_maxBombs (dt : ℚ) (st : GameState) :
    (stepExplosions dt st).player.maxBombs = st.player.maxBombs := by
  unfold stepExplosions
  rw [stepExplosionsAux_maxBombs]

lemma update_not_playing (st : GameState) (inp : Inputs) (dt : ℚ) (now : ℤ)
    (rnd : ℕ → EnemyRand) (h : st.status ≠ GameStatus.Playing) :
    update st inp dt now rnd = st := by
  unfold update
  rw [if_pos h]

lemma update_player_x_playing (st : GameState) (inp : Inputs) (dt : ℚ) (now : ℤ)
    (rnd : ℕ → EnemyRand) (h : st.status = GameStatus.Playing) :
    (update st inp dt now rnd).player.x = (stepPlayerMove inp st).player.x := by
  unfold update
  rw [if_neg (not_not_intro h)]
  dsimp only
  split <;> split <;> simp

lemma update_player_y_playing (st : GameState) (inp : Inputs) (dt : ℚ) (now : ℤ)
    (rnd : ℕ → EnemyRand) (h : st.status = GameStatus.Playing) :
    (update st inp dt now rnd).player.y = (stepPlayerMove inp st).player.y := by
  unfold update
  rw [if_neg (not_not_intro h)]
  dsimp only
  split <;> split <;> simp

lemma Inv_stepPlayerMove (inp : Inputs) (st : GameState) (h : Inv st) :
    Inv (stepPlayerMove inp st) := by
  unfold Inv at h ⊢
  rw [stepPlayerMove_bombs, stepPlayerMove_bombCount, stepPlayerMove_maxBombs]
  exact h

lemma Inv_placeBomb (now : ℤ) (st : GameState) (h : Inv st) : Inv (placeBomb now st) := by
  obtain ⟨hmax, hcount, hlen, hown, hpair⟩ := h
  unfold placeBomb
  dsimp only
  split
  · exact ⟨hmax, hcount, hlen, hown, hpair⟩
  · rename_i hlt
    split
    · exact ⟨hmax, hcount, hlen, hown, hpair⟩
    · rename_i hocc
      have hcells : ∀ b ∈ st.bombs,
          ¬((getGridPos b.x b.y).r = (getGridPos st.player.x st.player.y).r ∧
            (getGridPos b.x b.y).c = (getGridPos st.player.x st.player.y).c) := by
        intro b hb hcon
        apply hocc
        rw [List.any_eq_true]
        exact ⟨b, hb, by simp [hcon.1, hcon.2]⟩
      refine ⟨hmax, ?_, ?_, ?_, ?_⟩
      · simp [hcount]
      · have : st.player.bombCount < st.player.maxBombs := lt_of_not_le hlt
        rw [hmax, hcount] at this
        simp only [List.length_append, List.length_cons, List.length_nil]
        omega
      · intro b hb
        rcases List.mem_append.mp hb with hb | hb
        · exact hown b hb
        · simp only [List.mem_singleton] at hb
          subst hb
          rfl
      · rw [List.pairwise_append]
        refine ⟨hpair, List.pairwise_singleton _ _, ?_⟩
        intro b hb b' hb'
        simp only [List.mem_singleton] at hb'
        subst hb'
        rw [bombCell_center]
        intro hcon
        refine hcells b hb ?_
        have h1 : (bombCell b).c = (getGridPos st.player.x st.player.y).c := by
          rw [hcon]
        have h2 : (bombCell b).r = (getGridPos st.player.x st.player.y).r := by
          rw [hcon]
        exact ⟨h2, h1⟩

lemma decBomb_ownerId (dt : ℚ) (b : Bomb) : (decBomb dt b).ownerId = b.ownerId := rfl

lemma bombCell_decBomb (dt : ℚ) (b : Bomb) : bombCell (decBomb dt b) = bombCell b := rfl

lemma Inv_stepBombs (dt : ℚ) (now : ℤ) (st : GameState) (h : Inv st) :
    Inv (stepBombs dt now st) := by
  obtain ⟨hmax, hcount, hlen, hown, hpair⟩ := h
  have hb := stepBombs_bombs dt now st
  have hc := stepBombs_bombCount dt now st hown
  have hsplit : (st.bombs.map (decBomb dt)).length =
      (st.bombs.map (decBomb dt)).countP (fun b => decide (b.timer ≤ 0)) +
        ((st.bombs.map (decBomb dt)).filter bombAliveB).length := by
    rw [← List.countP_eq_length_filter]
    have h0 := (st.bombs.map (decBomb dt)).length_eq_countP_add_countP
      (fun b => decide (b.timer ≤ 0))
    rw [h0]
    congr 1
    apply List.countP_congr
    intro a _
    simp [bombAliveB]
  refine ⟨?_, ?_, ?_, ?_, ?_⟩
  · rw [stepBombs_maxBombs]
    exact hmax
  · rw [hc, hb, hcount]
    have hml : (st.bombs.map (decBomb dt)).length = st.bombs.length := List.length_map _ _
    omega
  · rw [hb]
    calc ((st.bombs.map (decBomb dt)).filter bombAliveB).length
        ≤ (st.bombs.map (decBomb dt)).length := List.length_filter_le _ _
      _ = st.bombs.length := List.length_map _ _
      _ ≤ 3 := hlen
  · intro b hb2
    rw [hb] at hb2
    have hb3 := List.mem_of_mem_filter hb2
    obtain ⟨a, ha, rfl⟩ := List.mem_map.mp hb3
    rw [decBomb_ownerId]
    exact hown a ha
  · rw [hb]
    refine List.Pairwise.sublist (List.filter_sublist _) ?_
    rw [List.pairwise_map]
    exact hpair.imp fun hne => by rwa [bombCell_decBomb, bombCell_decBomb]

lemma Inv_stepExplosions (dt : ℚ) (st : GameState) (h : Inv st) :
    Inv (stepExplosions dt st) := by
  unfold Inv at h ⊢
  rw [stepExplosions_bombs, stepExplosions_bombCount, stepExplosions_maxBombs]
  exact h

lemma Inv_stepEnemies (rnd : ℕ → EnemyRand) (st : GameState) (h : Inv st) :
    Inv (stepEnemies rnd st) := by
  unfold Inv at h ⊢
  rw [stepEnemies_bombs, stepEnemies_bombCount, stepEnemies_maxBombs]
  exact h

lemma Inv_setStatus (st : GameState) (s : GameStatus) (h : Inv st) :
    Inv { st with status := s } := by
  obtain ⟨h1, h2, h3, h4, h5⟩ := h
  exact ⟨h1, h2, h3, h4, h5⟩

lemma Inv_update (st : GameState) (inp : Inputs) (dt : ℚ) (now : ℤ) (rnd : ℕ → EnemyRand)
    (h : Inv st) : Inv (update st inp dt now rnd) := by
  rcases eq_or_ne st.status GameStatus.Playing with hs | hs
  · unfold update
    rw [if_neg (not_not_intro hs)]
    dsimp only
    have h1 := Inv_stepPlayerMove inp st h
    have h2 : Inv (if inp.space then placeBomb now (stepPlayerMove inp st)
        else stepPlayerMove inp st) := by
      split
      · exact Inv_placeBomb now _ h1
      · exact h1
    have h5 := Inv_stepEnemies rnd _ (Inv_stepExplosions dt _ (Inv_stepBombs dt now _ h2))
    set st5 := stepEnemies rnd (stepExplosions dt (stepBombs dt now
      (if inp.space then placeBomb now (stepPlayerMove inp st)
        else stepPlayerMove inp st))) with hst5
    split
    · exact Inv_setStatus _ _ h5
    · exact h5
  · rw [update_not_playing st inp dt now rnd hs]
    exact h

lemma Inv_menuState : Inv menuState := by
  refine ⟨rfl, rfl, ?_, ?_, List.Pairwise.nil⟩
  · simp [menuState]
  · intro b hb
    simp [menuState] at hb

lemma Inv_initGame (soft : ℕ → ℕ → Bool) (rand : ℕ → ℕ × ℕ × ℚ) :
    Inv (initGame soft rand) := by
  refine ⟨rfl, rfl, ?_, ?_, List.Pairwise.nil⟩
  · simp [initGame]
  · intro b hb
    simp [initGame] at hb

/-- Every reachable state satisfies the bomb bookkeeping invariant. -/
lemma reachable_inv (st : GameState) (h : Reachable st) : Inv st := by
  induction h with
  | menu => exact Inv_menuState
  | init soft rand => exact Inv_initGame soft rand
  | step st inp dt now rnd _ ih => exact Inv_update st inp dt now rnd ih

lemma castRay_zero (m : Grid) (r c dr dc : ℤ) : castRay m r c dr dc 0 = ([], m) := rfl

lemma castRay_succ_oob (m : Grid) (r c dr dc : ℤ) (n : ℕ)
    (h1 : r + dr < 0 ∨ GRID_ROWS ≤ r + dr ∨ c + dc < 0 ∨ GRID_COLS ≤ c + dc) :
    castRay m r c dr dc (n + 1) = ([], m) := by
  rw [castRay]
  dsimp only
  rw [if_pos h1]

lemma castRay_succ_hard (m : Grid) (r c dr dc : ℤ) (n : ℕ)
    (h1 : ¬(r + dr < 0 ∨ GRID_ROWS ≤ r + dr ∨ c + dc < 0 ∨ GRID_COLS ≤ c + dc))
    (h2 : tileAtD m (r + dr) (c + dc) = TileType.HardWall) :
    castRay m r c dr dc (n + 1) = ([], m) := by
  rw [castRay]
  dsimp only
  rw [if_neg h1, if_pos h2]

lemma castRay_succ_soft (m : Grid) (r c dr dc : ℤ) (n : ℕ)
    (h1 : ¬(r + dr < 0 ∨ GRID_ROWS ≤ r + dr ∨ c + dc < 0 ∨ GRID_COLS ≤ c + dc))
    (h2 : tileAtD m (r + dr) (c + dc) = TileType.SoftWall) :
    castRay m r c dr dc (n + 1) =
      ([(c + dc, r + dr)], setTile m (r + dr) (c + dc) TileType.Empty) := by
  rw [castRay]
  dsimp only
  rw [if_neg h1, if_neg (by rw [h2]; intro hcon; cases hcon), if_pos h2]

lemma castRay_succ_empty (m : Grid) (r c dr dc : ℤ) (n : ℕ)
    (h1 : ¬(r + dr < 0 ∨ GRID_ROWS ≤ r + dr ∨ c + dc < 0 ∨ GRID_COLS ≤ c + dc))
    (h2 : tileAtD m (r + dr) (c + dc) = TileType.Empty) :
    castRay m r c dr dc (n + 1) =
      ((c + dc, r + dr) :: (castRay m (r + dr) (c + dc) dr dc n).1,
        (castRay m (r + dr) (c + dc) dr dc n).2) := by
  rw [castRay]
  dsimp only
  rw [if_neg h1, if_neg (by rw [h2]; intro hcon; cases hcon),
    if_neg (by rw [h2]; intro hcon; cases hcon)]

lemma castRay_length_le (dr dc : ℤ) :
    ∀ (n : ℕ) (m : Grid) (r c : ℤ), (castRay m r c dr dc n).1.length ≤ n := by
  intro n
  induction n with
  | zero => intro m r c; simp [castRay_zero]
  | succ k ih =>
    intro m r c
    by_cases h1 : r + dr < 0 ∨ GRID_ROWS ≤ r + dr ∨ c + dc < 0 ∨ GRID_COLS ≤ c + dc
    · rw [castRay_succ_oob m r c dr dc k h1]
      simp
    · match h2 : tileAtD m (r + dr) (c + dc) with
      | TileType.HardWall =>
        rw [castRay_succ_hard m r c dr dc k h1 h2]
        simp
      | TileType.SoftWall =>
        rw [castRay_succ_soft m r c dr dc k h1 h2]
        simp
      | TileType.Empty =>
        rw [castRay_succ_empty m r c dr dc k h1 h2]
        simpa using ih m (r + dr) (c + dc)

lemma castRay_get (dr dc : ℤ) :
    ∀ (n : ℕ) (m : Grid) (r c : ℤ) (i : ℕ), i < (castRay m r c dr dc n).1.length →
      (castRay m r c dr dc n).1[i]? =
        some (c + dc * ((i : ℤ) + 1), r + dr * ((i : ℤ) + 1)) := by
  intro n
  induction n with
  | zero => intro m r c i h; simp [castRay_zero] at h
  | succ k ih =>
    intro m r c i h
    by_cases h1 : r + dr < 0 ∨ GRID_ROWS ≤ r + dr ∨ c + dc < 0 ∨ GRID_COLS ≤ c + dc
    · rw [castRay_succ_oob m r c dr dc k h1] at h
      simp at h
    · match h2 : tileAtD m (r + dr) (c + dc) with
      | TileType.HardWall =>
        rw [castRay_succ_hard m r c dr dc k h1 h2] at h
        simp at h
      | TileType.SoftWall =>
        have heq := castRay_succ_soft m r c dr dc k h1 h2
        rw [heq] at h
        simp only [List.length_singleton] at h
        have hi : i = 0 := Nat.lt_one_iff.mp h
        subst hi
        rw [heq]
        simp only [List.getElem?_cons_zero, Option.some.injEq, Prod.mk.injEq]
        constructor <;> push_cast <;> ring
      | TileType.Empty =>
        have heq := castRay_succ_empty m r c dr dc k h1 h2
        rw [heq] at h
        simp only [List.length_cons] at h
        match i with
        | 0 =>
          rw [heq]
          simp only [List.getElem?_cons_zero, Option.some.injEq, Prod.mk.injEq]
          constructor <;> push_cast <;> ring
        | j + 1 =>
          have hj : j < (castRay m (r + dr) (c + dc) dr dc k).1.length := Nat.lt_of_succ_lt_succ h
          have hrec := ih m (r + dr) (c + dc) j hj
          rw [heq]
          simp only [List.getElem?_cons_succ]
          rw [hrec]
          have e1 : c + dc + dc * ((j : ℤ) + 1) = c + dc * ((↑(j + 1) : ℤ) + 1) := by
            push_cast
            ring
          have e2 : r + dr + dr * ((j : ℤ) + 1) = r + dr * ((↑(j + 1) : ℤ) + 1) := by
            push_cast
            ring
          rw [e1, e2]

lemma castRay_cell_ok (dr dc : ℤ) :
    ∀ (n : ℕ) (m : Grid) (r c : ℤ) (i : ℕ), i < (castRay m r c dr dc n).1.length →
      (0 ≤ r + dr * ((i : ℤ) + 1) ∧ r + dr * ((i : ℤ) + 1) < GRID_ROWS ∧
        0 ≤ c + dc * ((i : ℤ) + 1) ∧ c + dc * ((i : ℤ) + 1) < GRID_COLS) ∧
      tileAtD m (r + dr * ((i : ℤ) + 1)) (c + dc * ((i : ℤ) + 1)) ≠ TileType.HardWall := by
  intro n
  induction n with
  | zero => intro m r c i h; simp [castRay_zero] at h
  | succ k ih =>
    intro m r c i h
    by_cases h1 : r + dr < 0 ∨ GRID_ROWS ≤ r + dr ∨ c + dc < 0 ∨ GRID_COLS ≤ c + dc
    · rw [castRay_succ_oob m r c dr dc k h1] at h
      simp at h
    · have hb := h1
      push_neg at hb
      match h2 : tileAtD m (r + dr) (c + dc) with
      | TileType.HardWall =>
        rw [castRay_succ_hard m r c dr dc k h1 h2] at h
        simp at h
      | TileType.SoftWall =>
        rw [castRay_succ_soft m r c dr dc k h1 h2] at h
        simp only [List.length_singleton] at h
        have hi : i = 0 := Nat.lt_one_iff.mp h
        subst hi
        have e1 : r + dr * ((↑(0 : ℕ) : ℤ) + 1) = r + dr := by push_cast; ring
        have e2 : c + dc * ((↑(0 : ℕ) : ℤ) + 1) = c + dc := by push_cast; ring
        rw [e1, e2, h2]
        exact ⟨⟨hb.1, hb.2.1, hb.2.2.1, hb.2.2.2⟩, by intro hcon; cases hcon⟩
      | TileType.Empty =>
        rw [castRay_succ_empty m r c dr dc k h1 h2] at h
        simp only [List.length_cons] at h
        match i with
        | 0 =>
          have e1 : r + dr * ((↑(0 : ℕ) : ℤ) + 1) = r + dr := by push_cast; ring
          have e2 : c + dc * ((↑(0 : ℕ) : ℤ) + 1) = c + dc := by push_cast; ring
          rw [e1, e2, h2]
          exact ⟨⟨hb.1, hb.2.1, hb.2.2.1, hb.2.2.2⟩, by intro hcon; cases hcon⟩
        | j + 1 =>
          have hj : j < (castRay m (r + dr) (c + dc) dr dc k).1.length := Nat.lt_of_succ_lt_succ h
          have hrec := ih m (r + dr) (c + dc) j hj
          have e1 : r + dr + dr * ((j : ℤ) + 1) = r + dr * ((↑(j + 1) : ℤ) + 1) := by
            push_cast
            ring
          have e2 : c + dc + dc * ((j : ℤ) + 1) = c + dc * ((↑(j + 1) : ℤ) + 1) := by
            push_cast
            ring
          rw [e1, e2] at hrec
          exact hrec

lemma castRay_empty_before (dr dc : ℤ) :
    ∀ (n : ℕ) (m : Grid) (r c : ℤ) (i : ℕ), i + 1 < (castRay m r c dr dc n).1.length →
      tileAtD m (r + dr * ((i : ℤ) + 1)) (c + dc * ((i : ℤ) + 1)) = TileType.Empty := by
  intro n
  induction n with
  | zero => intro m r c i h; simp [castRay_zero] at h
  | succ k ih =>
    intro m r c i h
    by_cases h1 : r + dr < 0 ∨ GRID_ROWS ≤ r + dr ∨ c + dc < 0 ∨ GRID_COLS ≤ c + dc
    · rw [castRay_succ_oob m r c dr dc k h1] at h
      simp at h
    · match h2 : tileAtD m (r + dr) (c + dc) with
      | TileType.HardWall =>
        rw [castRay_succ_hard m r c dr dc k h1 h2] at h
        simp at h
      | TileType.SoftWall =>
        rw [castRay_succ_soft m r c dr dc k h1 h2] at h
        simp only [List.length_singleton] at h
        omega
      | TileType.Empty =>
        rw [castRay_succ_empty m r c dr dc k h1 h2] at h
        simp only [List.length_cons] at h
        match i with
        | 0 =>
          have e1 : r + dr * ((↑(0 : ℕ) : ℤ) + 1) = r + dr := by push_cast; ring
          have e2 : c + dc * ((↑(0 : ℕ) : ℤ) + 1) = c + dc := by push_cast; ring
          rw [e1, e2, h2]
        | j + 1 =>
          have hj : j + 1 < (castRay m (r + dr) (c + dc) dr dc k).1.length :=
            Nat.lt_of_succ_lt_succ h
          have hrec := ih m (r + dr) (c + dc) j hj
          have e1 : r + dr + dr * ((j : ℤ) + 1) = r + dr * ((↑(j + 1) : ℤ) + 1) := by
            push_cast
            ring
          have e2 : c + dc + dc * ((j : ℤ) + 1) = c + dc * ((↑(j + 1) : ℤ) + 1) := by
            push_cast
            ring
          rw [e1, e2] at hrec
          exact hrec

lemma castRay_continue (dr dc : ℤ) :
    ∀ (n : ℕ) (m : Grid) (r c : ℤ) (t : ℕ), t ≤ n →
      (∀ j : ℕ, 1 ≤ j → j ≤ t →
        ¬(r + dr * (j : ℤ) < 0 ∨ GRID_ROWS ≤ r + dr * (j : ℤ) ∨ c + dc * (j : ℤ) < 0 ∨
            GRID_COLS ≤ c + dc * (j : ℤ)) ∧
          tileAtD m (r + dr * (j : ℤ)) (c + dc * (j : ℤ)) = TileType.Empty) →
      t ≤ (castRay m r c dr dc n).1.length := by
  intro n
  induction n with
  | zero => intro m r c t ht _; omega
  | succ k ih =>
    intro m r c t ht hcells
    match t with
    | 0 => exact Nat.zero_le _
    | s + 1 =>
      have h1cell := hcells 1 le_rfl (by omega)
      have e1 : r + dr * ((1 : ℕ) : ℤ) = r + dr := by push_cast; ring
      have e2 : c + dc * ((1 : ℕ) : ℤ) = c + dc := by push_cast; ring
      rw [e1, e2] at h1cell
      rw [castRay_succ_empty m r c dr dc k h1cell.1 h1cell.2]
      simp only [List.length_cons]
      have hs : s ≤ (castRay m (r + dr) (c + dc) dr dc k).1.length := by
        refine ih m (r + dr) (c + dc) s (by omega) ?_
        intro j hj1 hjs
        have horig := hcells (j + 1) (by omega) (by omega)
        have e3 : r + dr * ((↑(j + 1) : ℤ)) = r + dr + dr * (j : ℤ) := by push_cast; ring
        have e4 : c + dc * ((↑(j + 1) : ℤ)) = c + dc + dc * (j : ℤ) := by push_cast; ring
        rw [e3, e4] at horig
        exact horig
      omega

lemma castRay_soft_stop (dr dc : ℤ) :
    ∀ (n : ℕ) (m : Grid) (r c : ℤ) (t : ℕ), 1 ≤ t → t ≤ n →
      (∀ j : ℕ, 1 ≤ j → j < t →
        ¬(r + dr * (j : ℤ) < 0 ∨ GRID_ROWS ≤ r + dr * (j : ℤ) ∨ c + dc * (j : ℤ) < 0 ∨
            GRID_COLS ≤ c + dc * (j : ℤ)) ∧
          tileAtD m (r + dr * (j : ℤ)) (c + dc * (j : ℤ)) = TileType.Empty) →
      ¬(r + dr * (t : ℤ) < 0 ∨ GRID_ROWS ≤ r + dr * (t : ℤ) ∨ c + dc * (t : ℤ) < 0 ∨
          GRID_COLS ≤ c + dc * (t : ℤ)) →
      tileAtD m (r + dr * (t : ℤ)) (c + dc * (t : ℤ)) = TileType.SoftWall →
      (castRay m r c dr dc n).1.length = t := by
  intro n
  induction n with
  | zero => intro m r c t ht1 ht2 _ _ _; omega
  | succ k ih =>
    intro m r c t ht1 ht2 hcells hb hsoft
    match t with
    | 0 => omega
    | 1 =>
      have e1 : r + dr * ((1 : ℕ) : ℤ) = r + dr := by push_cast; ring
      have e2 : c + dc * ((1 : ℕ) : ℤ) = c + dc := by push_cast; ring
      rw [e1, e2] at hb hsoft
      rw [castRay_succ_soft m r c dr dc k hb hsoft]
      rfl
    | s + 2 =>
      have h1cell := hcells 1 le_rfl (by omega)
      have e1 : r + dr * ((1 : ℕ) : ℤ) = r + dr := by push_cast; ring
      have e2 : c + dc * ((1 : ℕ) : ℤ) = c + dc := by push_cast; ring
      rw [e1, e2] at h1cell
      rw [castRay_succ_empty m r c dr dc k h1cell.1 h1cell.2]
      simp only [List.length_cons]
      have e3 : r + dr * ((↑(s + 2) : ℤ)) = r + dr + dr * ((↑(s + 1) : ℤ)) := by
        push_cast; ring
      have e4 : c + dc * ((↑(s + 2) : ℤ)) = c + dc + dc * ((↑(s + 1) : ℤ)) := by
        push_cast; ring
      have hrec : (castRay m (r + dr) (c + dc) dr dc k).1.length = s + 1 := by
        apply ih m (r + dr) (c + dc) (s + 1) (by omega) (by omega)
        · intro j hj1 hjs
          have horig := hcells (j + 1) (by omega) (by omega)
          have e5 : r + dr * ((↑(j + 1) : ℤ)) = r + dr + dr * (j : ℤ) := by push_cast; ring
          have e6 : c + dc * ((↑(j + 1) : ℤ)) = c + dc + dc * (j : ℤ) := by push_cast; ring
          rw [e5, e6] at horig
          exact horig
        · rw [e3, e4] at hb
          exact hb
        · rw [e3, e4] at hsoft
          exact hsoft
      omega

lemma castRay_map_structure (dr dc : ℤ) :
    ∀ (n : ℕ) (m : Grid) (r c : ℤ),
      (castRay m r c dr dc n).2 = m ∨
        (0 < (castRay m r c dr dc n).1.length ∧
          tileAtD m (r + dr * ((castRay m r c dr dc n).1.length : ℤ))
              (c + dc * ((castRay m r c dr dc n).1.length : ℤ)) = TileType.SoftWall ∧
          (castRay m r c dr dc n).2 =
            setTile m (r + dr * ((castRay m r c dr dc n).1.length : ℤ))
              (c + dc * ((castRay m r c dr dc n).1.length : ℤ)) TileType.Empty) := by
  intro n
  induction n with
  | zero => intro m r c; left; rfl
  | succ k ih =>
    intro m r c
    by_cases h1 : r + dr < 0 ∨ GRID_ROWS ≤ r + dr ∨ c + dc < 0 ∨ GRID_COLS ≤ c + dc
    · left
      rw [castRay_succ_oob m r c dr dc k h1]
    · match h2 : tileAtD m (r + dr) (c + dc) with
      | TileType.HardWall =>
        left
        rw [castRay_succ_hard m r c dr dc k h1 h2]
      | TileType.SoftWall =>
        right
        rw [castRay_succ_soft m r c dr dc k h1 h2]
        simp only [List.length_singleton]
        have e1 : r + dr * ((1 : ℕ) : ℤ) = r + dr := by push_cast; ring
        have e2 : c + dc * ((1 : ℕ) : ℤ) = c + dc := by push_cast; ring
        rw [e1, e2]
        exact ⟨Nat.one_pos, h2, rfl⟩
      | TileType.Empty =>
        rw [castRay_succ_empty m r c dr dc k h1 h2]
        simp only [List.length_cons]
        rcases ih m (r + dr) (c + dc) with hm | ⟨hpos, hsoft, hmap⟩
        · left
          exact hm
        · right
          refine ⟨Nat.succ_pos _, ?_, ?_⟩
          · have e3 : r + dr * ((↑((castRay m (r + dr) (c + dc) dr dc k).1.length + 1) : ℤ)) =
                r + dr + dr * ((castRay m (r + dr) (c + dc) dr dc k).1.length : ℤ) := by
              push_cast
              ring
            have e4 : c + dc * ((↑((castRay m (r + dr) (c + dc) dr dc k).1.length + 1) : ℤ)) =
                c + dc + dc * ((castRay m (r + dr) (c + dc) dr dc k).1.length : ℤ) := by
              push_cast
              ring
            rw [e3, e4]
            exact hsoft
          · have e3 : r + dr * ((↑((castRay m (r + dr) (c + dc) dr dc k).1.length + 1) : ℤ)) =
                r + dr + dr * ((castRay m (r + dr) (c + dc) dr dc k).1.length : ℤ) := by
              push_cast
              ring
            have e4 : c + dc * ((↑((castRay m (r + dr) (c + dc) dr dc k).1.length + 1) : ℤ)) =
                c + dc + dc * ((castRay m (r + dr) (c + dc) dr dc k).1.length : ℤ) := by
              push_cast
              ring
            rw [e3, e4]
            exact hmap

lemma tileAtD_setTile_self (m : Grid) (r c : ℤ) (t : TileType)
    (hr : r.toNat < m.length) (hc : c.toNat < (m.getD r.toNat []).length) :
    tileAtD (setTile m r c t) r c = t := by
  unfold tileAtD setTile
  simp only [List.getD_eq_getElem?_getD] at hc ⊢
  rw [List.getElem?_set_self hr]
  simp only [Option.getD_some]
  rw [List.getElem?_set_self hc]
  rfl

lemma tileAtD_setTile_ne (m : Grid) (r c : ℤ) (t : TileType) (r2 c2 : ℤ)
    (h : r.toNat ≠ r2.toNat ∨ c.toNat ≠ c2.toNat) :
    tileAtD (setTile m r c t) r2 c2 = tileAtD m r2 c2 := by
  unfold tileAtD setTile
  simp only [List.getD_eq_getElem?_getD]
  by_cases hr : r.toNat = r2.toNat
  · have hc : c.toNat ≠ c2.toNat := by tauto
    rw [List.getElem?_set, if_pos hr]
    by_cases hlen : r.toNat < m.length
    · rw [if_pos hlen]
      simp only [Option.getD_some]
      rw [List.getElem?_set_ne hc, hr]
    · rw [if_neg hlen]
      have hnone : m[r2.toNat]? = none := by
        rw [List.getElem?_eq_none_iff]
        omega
      rw [hnone]
  · rw [List.getElem?_set_ne hr]

lemma GridWF_setTile (m : Grid) (r c : ℤ) (t : TileType) (h : GridWF m) :
    GridWF (setTile m r c t) := by
  obtain ⟨hlen, hrows⟩ := h
  by_cases hr : r.toNat < m.length
  · constructor
    · rw [setTile, List.length_set]
      exact hlen
    · intro row hrow
      rcases List.mem_or_eq_of_mem_set hrow with hmem | heq
      · exact hrows row hmem
      · subst heq
        rw [List.length_set]
        have hgd : m.getD r.toNat [] = m[r.toNat] := by
          rw [List.getD_eq_getElem?_getD, List.getElem?_eq_getElem hr]
          rfl
        rw [hgd]
        exact hrows _ (List.getElem_mem hr)
  · have hid : setTile m r c t = m := by
      rw [setTile]
      exact List.set_eq_of_length_le (by omega)
    rw [hid]
    exact ⟨hlen, hrows⟩

lemma GridWF_castRay (dr dc : ℤ) (n : ℕ) (m : Grid) (r c : ℤ) (h : GridWF m) :
    GridWF (castRay m r c dr dc n).2 := by
  rcases castRay_map_structure dr dc n m r c with hm | ⟨_, _, hm⟩ <;> rw [hm]
  · exact h
  · exact GridWF_setTile _ _ _ _ h

lemma castRay_congr (dr dc : ℤ) :
    ∀ (n : ℕ) (m1 m2 : Grid) (r c : ℤ),
      (∀ i : ℕ, 1 ≤ i → i ≤ n →
        ¬(r + dr * (i : ℤ) < 0 ∨ GRID_ROWS ≤ r + dr * (i : ℤ) ∨ c + dc * (i : ℤ) < 0 ∨
            GRID_COLS ≤ c + dc * (i : ℤ)) →
        tileAtD m1 (r + dr * (i : ℤ)) (c + dc * (i : ℤ)) =
          tileAtD m2 (r + dr * (i : ℤ)) (c + dc * (i : ℤ))) →
      (castRay m1 r c dr dc n).1 = (castRay m2 r c dr dc n).1 := by
  intro n
  induction n with
  | zero => intro m1 m2 r c _; rfl
  | succ k ih =>
    intro m1 m2 r c hagree
    have e1 : r + dr * ((1 : ℕ) : ℤ) = r + dr := by push_cast; ring
    have e2 : c + dc * ((1 : ℕ) : ℤ) = c + dc := by push_cast; ring
    by_cases h1 : r + dr < 0 ∨ GRID_ROWS ≤ r + dr ∨ c + dc < 0 ∨ GRID_COLS ≤ c + dc
    · rw [castRay_succ_oob m1 r c dr dc k h1, castRay_succ_oob m2 r c dr dc k h1]
    · have htile := hagree 1 le_rfl (by omega) (by rw [e1, e2]; exact h1)
      rw [e1, e2] at htile
      match h2 : tileAtD m1 (r + dr) (c + dc) with
      | TileType.HardWall =>
        rw [castRay_succ_hard m1 r c dr dc k h1 h2,
          castRay_succ_hard m2 r c dr dc k h1 (by rw [← htile, h2])]
      | TileType.SoftWall =>
        rw [castRay_succ_soft m1 r c dr dc k h1 h2,
          castRay_succ_soft m2 r c dr dc k h1 (by rw [← htile, h2])]
      | TileType.Empty =>
        rw [castRay_succ_empty m1 r c dr dc k h1 h2,
          castRay_succ_empty m2 r c dr dc k h1 (by rw [← htile, h2])]
        have hrec : (castRay m1 (r + dr) (c + dc) dr dc k).1 =
            (castRay m2 (r + dr) (c + dc) dr dc k).1 := by
          apply ih
          intro i hi1 hik hb
          have e3 : r + dr + dr * (i : ℤ) = r + dr * ((↑(i + 1) : ℤ)) := by push_cast; ring
          have e4 : c + dc + dc * (i : ℤ) = c + dc * ((↑(i + 1) : ℤ)) := by push_cast; ring
          rw [e3, e4]
          rw [e3, e4] at hb
          exact hagree (i + 1) (by omega) (by omega) hb
        rw [hrec]

lemma castRay_preserves (dr dc : ℤ) (n : ℕ) (m : Grid) (r c r2 c2 : ℤ)
    (hr2 : 0 ≤ r2) (hc2 : 0 ≤ c2)
    (h : ∀ i : ℕ, 1 ≤ i → i ≤ n → ¬(r2 = r + dr * (i : ℤ) ∧ c2 = c + dc * (i : ℤ))) :
    tileAtD (castRay m r c dr dc n).2 r2 c2 = tileAtD m r2 c2 := by
  rcases castRay_map_structure dr dc n m r c with hm | ⟨hpos, _, hm⟩
  · rw [hm]
  · rw [hm]
    have hk1 : 1 ≤ (castRay m r c dr dc n).1.length := hpos
    have hkn : (castRay m r c dr dc n).1.length ≤ n := castRay_length_le dr dc n m r c
    have hcell := (castRay_cell_ok dr dc n m r c ((castRay m r c dr dc n).1.length - 1)
      (by omega)).1
    have ei : ((↑((castRay m r c dr dc n).1.length - 1) : ℤ) + 1) =
        ((castRay m r c dr dc n).1.length : ℤ) := by omega
    rw [ei] at hcell
    have hne := h (castRay m r c dr dc n).1.length hk1 hkn
    apply tileAtD_setTile_ne
    rcases not_and_or.mp hne with hx | hx
    · left
      omega
    · right
      omega

lemma castRay_soft_map (dr dc : ℤ) :
    ∀ (n : ℕ) (m : Grid) (r c : ℤ) (i : ℕ), i < (castRay m r c dr dc n).1.length →
      tileAtD m (r + dr * ((i : ℤ) + 1)) (c + dc * ((i : ℤ) + 1)) = TileType.SoftWall →
      (castRay m r c dr dc n).2 =
          setTile m (r + dr * ((i : ℤ) + 1)) (c + dc * ((i : ℤ) + 1)) TileType.Empty ∧
        i + 1 = (castRay m r c dr dc n).1.length := by
  intro n
  induction n with
  | zero => intro m r c i h; simp [castRay_zero] at h
  | succ k ih =>
    intro m r c i h hsoft
    by_cases h1 : r + dr < 0 ∨ GRID_ROWS ≤ r + dr ∨ c + dc < 0 ∨ GRID_COLS ≤ c + dc
    · rw [castRay_succ_oob m r c dr dc k h1] at h
      simp at h
    · match h2 : tileAtD m (r + dr) (c + dc) with
      | TileType.HardWall =>
        rw [castRay_succ_hard m r c dr dc k h1 h2] at h
        simp at h
      | TileType.SoftWall =>
        have heq := castRay_succ_soft m r c dr dc k h1 h2
        rw [heq] at h
        simp only [List.length_singleton] at h
        have hi : i = 0 := Nat.lt_one_iff.mp h
        subst hi
        have e1 : r + dr * ((↑(0 : ℕ) : ℤ) + 1) = r + dr := by push_cast; ring
        have e2 : c + dc * ((↑(0 : ℕ) : ℤ) + 1) = c + dc := by push_cast; ring
        rw [heq, e1, e2]
        simp
      | TileType.Empty =>
        have heq := castRay_succ_empty m r c dr dc k h1 h2
        rw [heq] at h
        simp only [List.length_cons] at h
        match i with
        | 0 =>
          have e1 : r + dr * ((↑(0 : ℕ) : ℤ) + 1) = r + dr := by push_cast; ring
          have e2 : c + dc * ((↑(0 : ℕ) : ℤ) + 1) = c + dc := by push_cast; ring
          rw [e1, e2] at hsoft
          rw [hsoft] at h2
          cases h2
        | j + 1 =>
          have hj : j < (castRay m (r + dr) (c + dc) dr dc k).1.length :=
            Nat.lt_of_succ_lt_succ h
          have e1 : r + dr * ((↑(j + 1) : ℤ) + 1) = r + dr + dr * ((j : ℤ) + 1) := by
            push_cast
            ring
          have e2 : c + dc * ((↑(j + 1) : ℤ) + 1) = c + dc + dc * ((j : ℤ) + 1) := by
            push_cast
            ring
          rw [e1, e2] at hsoft
          have hrec := ih m (r + dr) (c + dc) j hj hsoft
          rw [heq, e1, e2]
          simp only [List.length_cons]
          exact ⟨hrec.1, by omega⟩

lemma explodeDirs_eq_rays (m : Grid) (cr cc : ℤ) (n : ℕ) :
    (explodeDirs m cr cc n).1 =
      (castRay m cr cc (-1) 0 n).1 ++ (castRay m cr cc 1 0 n).1 ++
        (castRay m cr cc 0 (-1) n).1 ++ (castRay m cr cc 0 1 n).1 := by
  unfold explodeDirs
  dsimp only
  have h2 : (castRay (castRay m cr cc (-1) 0 n).2 cr cc 1 0 n).1 =
      (castRay m cr cc 1 0 n).1 := by
    apply castRay_congr
    intro i hi1 hin hb
    push_neg at hb
    apply castRay_preserves (-1) 0 n m cr cc _ _ (by omega) (by omega)
    intro j hj1 hjn hcon
    omega
  have h3 : (castRay (castRay (castRay m cr cc (-1) 0 n).2 cr cc 1 0 n).2 cr cc 0 (-1) n).1 =
      (castRay m cr cc 0 (-1) n).1 := by
    apply castRay_congr
    intro i hi1 hin hb
    push_neg at hb
    have s1 : tileAtD (castRay (castRay m cr cc (-1) 0 n).2 cr cc 1 0 n).2
        (cr + 0 * (i : ℤ)) (cc + -1 * (i : ℤ)) =
        tileAtD (castRay m cr cc (-1) 0 n).2 (cr + 0 * (i : ℤ)) (cc + -1 * (i : ℤ)) := by
      apply castRay_preserves 1 0 n _ cr cc _ _ (by omega) (by omega)
      intro j hj1 hjn hcon
      omega
    have s2 : tileAtD (castRay m cr cc (-1) 0 n).2 (cr + 0 * (i : ℤ)) (cc + -1 * (i : ℤ)) =
        tileAtD m (cr + 0 * (i : ℤ)) (cc + -1 * (i : ℤ)) := by
      apply castRay_preserves (-1) 0 n m cr cc _ _ (by omega) (by omega)
      intro j hj1 hjn hcon
      omega
    rw [s1, s2]
  have h4 : (castRay (castRay (castRay (castRay m cr cc (-1) 0 n).2 cr cc 1 0 n).2
        cr cc 0 (-1) n).2 cr cc 0 1 n).1 = (castRay m cr cc 0 1 n).1 := by
    apply castRay_congr
    intro i hi1 hin hb
    push_neg at hb
    have s1 : tileAtD (castRay (castRay (castRay m cr cc (-1) 0 n).2 cr cc 1 0 n).2
        cr cc 0 (-1) n).2 (cr + 0 * (i : ℤ)) (cc + 1 * (i : ℤ)) =
        tileAtD (castRay (castRay m cr cc (-1) 0 n).2 cr cc 1 0 n).2
          (cr + 0 * (i : ℤ)) (cc + 1 * (i : ℤ)) := by
      apply castRay_preserves 0 (-1) n _ cr cc _ _ (by omega) (by omega)
      intro j hj1 hjn hcon
      omega
    have s2 : tileAtD (castRay (castRay m cr cc (-1) 0 n).2 cr cc 1 0 n).2
        (cr + 0 * (i : ℤ)) (cc + 1 * (i : ℤ)) =
        tileAtD (castRay m cr cc (-1) 0 n).2 (cr + 0 * (i : ℤ)) (cc + 1 * (i : ℤ)) := by
      apply castRay_preserves 1 0 n _ cr cc _ _ (by omega) (by omega)
      intro j hj1 hjn hcon
      omega
    have s3 : tileAtD (castRay m cr cc (-1) 0 n).2 (cr + 0 * (i : ℤ)) (cc + 1 * (i : ℤ)) =
        tileAtD m (cr + 0 * (i : ℤ)) (cc + 1 * (i : ℤ)) := by
      apply castRay_preserves (-1) 0 n m cr cc _ _ (by omega) (by omega)
      intro j hj1 hjn hcon
      omega
    rw [s1, s2, s3]
  rw [h2, h3, h4]

lemma mem_ray_shape (dr dc : ℤ) (n : ℕ) (m : Grid) (r c : ℤ) (p : ℤ × ℤ)
    (hp : p ∈ (castRay m r c dr dc n).1) :
    ∃ i : ℕ, i < (castRay m r c dr dc n).1.length ∧
      p = (c + dc * ((i : ℤ) + 1), r + dr * ((i : ℤ) + 1)) := by
  rcases List.mem_iff_getElem?.mp hp with ⟨i, hi⟩
  rcases List.getElem?_eq_some.mp hi with ⟨hlt, _⟩
  refine ⟨i, hlt, ?_⟩
  have hget := castRay_get dr dc n m r c i hlt
  rw [hi] at hget
  exact Option.some.inj hget

lemma GridWF_bounds (m : Grid) (h : GridWF m) (r c : ℤ)
    (hr : 0 ≤ r) (hr2 : r < GRID_ROWS) (hc : 0 ≤ c) (hc2 : c < GRID_COLS) :
    r.toNat < m.length ∧ c.toNat < (m.getD r.toNat []).length := by
  obtain ⟨hlen, hrows⟩ := h
  have hR : GRID_ROWS.toNat = 15 := rfl
  have hR2 : GRID_ROWS = 15 := rfl
  have hC2 : GRID_COLS = 15 := rfl
  have h1 : r.toNat < m.length := by omega
  refine ⟨h1, ?_⟩
  have hgd : m.getD r.toNat [] = m[r.toNat] := by
    rw [List.getD_eq_getElem?_getD, List.getElem?_eq_getElem h1]
    rfl
  rw [hgd, hrows _ (List.getElem_mem h1)]
  omega

lemma ray_no_beyond (dr dc : ℤ) (n : ℕ) (m : Grid) (r c : ℤ) (j i t : ℕ)
    (hj : 1 ≤ j) (hji : j < i)
    (hwall : tileAtD m (r + dr * (j : ℤ)) (c + dc * (j : ℤ)) ≠ TileType.Empty)
    (ht : t < (castRay m r c dr dc n).1.length) (hit : i = t + 1) : False := by
  have hE := castRay_empty_before dr dc n m r c (j - 1) (by omega)
  have e1 : ((↑(j - 1) : ℤ) + 1) = (j : ℤ) := by omega
  rw [e1] at hE
  exact hwall hE

/-- After a full detonation the grid holds `Empty` at any cell at which one
of the four rays (as cast on the original grid) saw a `SoftWall`. -/
lemma explodeDirs_soft_empty (m : Grid) (cr cc : ℤ) (n : ℕ) (hw : GridWF m)
    (dr dc : ℤ) (hd : (dr, dc) ∈ dirPairs) (i : ℕ)
    (hi : i < (castRay m cr cc dr dc n).1.length)
    (hsoft : tileAtD m (cr + dr * ((i : ℤ) + 1)) (cc + dc * ((i : ℤ) + 1)) = TileType.SoftWall) :
    tileAtD (explodeDirs m cr cc n).2 (cr + dr * ((i : ℤ) + 1)) (cc + dc * ((i : ℤ) + 1)) =
      TileType.Empty := by
  have hbb := (castRay_cell_ok dr dc n m cr cc i hi).1
  have hw2 : GridWF (castRay m cr cc (-1) 0 n).2 := GridWF_castRay _ _ _ _ _ _ hw
  have hw3 : GridWF (castRay (castRay m cr cc (-1) 0 n).2 cr cc 1 0 n).2 :=
    GridWF_castRay _ _ _ _ _ _ hw2
  have hw4 : GridWF (castRay (castRay (castRay m cr cc (-1) 0 n).2 cr cc 1 0 n).2
      cr cc 0 (-1) n).2 := GridWF_castRay _ _ _ _ _ _ hw3
  unfold explodeDirs
  dsimp only
  fin_cases hd
  · -- ray up, cast first on the original grid
    have hmap := castRay_soft_map (-1) 0 n m cr cc i hi hsoft
    have hbounds := GridWF_bounds m hw _ _ hbb.1 hbb.2.1 hbb.2.2.1 hbb.2.2.2
    have hE : tileAtD (castRay m cr cc (-1) 0 n).2 (cr + -1 * ((i : ℤ) + 1))
        (cc + 0 * ((i : ℤ) + 1)) = TileType.Empty := by
      rw [hmap.1]
      exact tileAtD_setTile_self _ _ _ _ hbounds.1 hbounds.2
    have p2 : tileAtD (castRay (castRay m cr cc (-1) 0 n).2 cr cc 1 0 n).2
        (cr + -1 * ((i : ℤ) + 1)) (cc + 0 * ((i : ℤ) + 1)) =
        tileAtD (castRay m cr cc (-1) 0 n).2 (cr + -1 * ((i : ℤ) + 1))
          (cc + 0 * ((i : ℤ) + 1)) := by
      apply castRay_preserves 1 0 n _ cr cc _ _ (by omega) (by omega)
      intro j hj1 hjn hcon
      omega
    have p3 : tileAtD (castRay (castRay (castRay m cr cc (-1) 0 n).2 cr cc 1 0 n).2
        cr cc 0 (-1) n).2 (cr + -1 * ((i : ℤ) + 1)) (cc + 0 * ((i : ℤ) + 1)) =
        tileAtD (castRay (castRay m cr cc (-1) 0 n).2 cr cc 1 0 n).2
          (cr + -1 * ((i : ℤ) + 1)) (cc + 0 * ((i : ℤ) + 1)) := by
      apply castRay_preserves 0 (-1) n _ cr cc _ _ (by omega) (by omega)
      intro j hj1 hjn hcon
      omega
    have p4 : tileAtD (castRay (castRay (castRay (castRay m cr cc (-1) 0 n).2
        cr cc 1 0 n).2 cr cc 0 (-1) n).2 cr cc 0 1 n).2
        (cr + -1 * ((i : ℤ) + 1)) (cc + 0 * ((i : ℤ) + 1)) =
        tileAtD (castRay (castRay (castRay m cr cc (-1) 0 n).2 cr cc 1 0 n).2
          cr cc 0 (-1) n).2 (cr + -1 * ((i : ℤ) + 1)) (cc + 0 * ((i : ℤ) + 1)) := by
      apply castRay_preserves 0 1 n _ cr cc _ _ (by omega) (by omega)
      intro j hj1 hjn hcon
      omega
    rw [p4, p3, p2, hE]
  · -- ray down, cast on the grid left by the up ray
    have hlist : (castRay (castRay m cr cc (-1) 0 n).2 cr cc 1 0 n).1 =
        (castRay m cr cc 1 0 n).1 := by
      apply castRay_congr
      intro t ht1 htn hb
      push_neg at hb
      apply castRay_preserves (-1) 0 n m cr cc _ _ (by omega) (by omega)
      intro j hj1 hjn hcon
      omega
    have htile2 : tileAtD (castRay m cr cc (-1) 0 n).2 (cr + 1 * ((i : ℤ) + 1))
        (cc + 0 * ((i : ℤ) + 1)) = TileType.SoftWall := by
      rw [← hsoft]
      apply castRay_preserves (-1) 0 n m cr cc _ _ (by omega) (by omega)
      intro j hj1 hjn hcon
      omega
    have hi2 : i < (castRay (castRay m cr cc (-1) 0 n).2 cr cc 1 0 n).1.length := by
      rw [hlist]
      exact hi
    have hmap := castRay_soft_map 1 0 n _ cr cc i hi2 htile2
    have hbounds := GridWF_bounds _ hw2 _ _ hbb.1 hbb.2.1 hbb.2.2.1 hbb.2.2.2
    have hE : tileAtD (castRay (castRay m cr cc (-1) 0 n).2 cr cc 1 0 n).2
        (cr + 1 * ((i : ℤ) + 1)) (cc + 0 * ((i : ℤ) + 1)) = TileType.Empty := by
      rw [hmap.1]
      exact tileAtD_setTile_self _ _ _ _ hbounds.1 hbounds.2
    have p3 : tileAtD (castRay (castRay (castRay m cr cc (-1) 0 n).2 cr cc 1 0 n).2
        cr cc 0 (-1) n).2 (cr + 1 * ((i : ℤ) + 1)) (cc + 0 * ((i : ℤ) + 1)) =
        tileAtD (castRay (castRay m cr cc (-1) 0 n).2 cr cc 1 0 n).2
          (cr + 1 * ((i : ℤ) + 1)) (cc + 0 * ((i : ℤ) + 1)) := by
      apply castRay_preserves 0 (-1) n _ cr cc _ _ (by omega) (by omega)
      intro j hj1 hjn hcon
      omega
    have p4 : tileAtD (castRay (castRay (castRay (castRay m cr cc (-1) 0 n).2
        cr cc 1 0 n).2 cr cc 0 (-1) n).2 cr cc 0 1 n).2
        (cr + 1 * ((i : ℤ) + 1)) (cc + 0 * ((i : ℤ) + 1)) =
        tileAtD (castRay (castRay (castRay m cr cc (-1) 0 n).2 cr cc 1 0 n).2
          cr cc 0 (-1) n).2 (cr + 1 * ((i : ℤ) + 1)) (cc + 0 * ((i : ℤ) + 1)) := by
      apply castRay_preserves 0 1 n _ cr cc _ _ (by omega) (by omega)
      intro j hj1 hjn hcon
      omega
    rw [p4, p3, hE]
  · -- ray left, cast on the grid left by the up and down rays
    have hlist : (castRay (castRay (castRay m cr cc (-1) 0 n).2 cr cc 1 0 n).2
        cr cc 0 (-1) n).1 = (castRay m cr cc 0 (-1) n).1 := by
      apply castRay_congr
      intro t ht1 htn hb
      push_neg at hb
      have s1 : tileAtD (castRay (castRay m cr cc (-1) 0 n).2 cr cc 1 0 n).2
          (cr + 0 * (t : ℤ)) (cc + -1 * (t : ℤ)) =
          tileAtD (castRay m cr cc (-1) 0 n).2 (cr + 0 * (t : ℤ)) (cc + -1 * (t : ℤ)) := by
        apply castRay_preserves 1 0 n _ cr cc _ _ (by omega) (by omega)
        intro j hj1 hjn hcon
        omega
      have s2 : tileAtD (castRay m cr cc (-1) 0 n).2 (cr + 0 * (t : ℤ))
          (cc + -1 * (t : ℤ)) = tileAtD m (cr + 0 * (t : ℤ)) (cc + -1 * (t : ℤ)) := by
        apply castRay_preserves (-1) 0 n m cr cc _ _ (by omega) (by omega)
        intro j hj1 hjn hcon
        omega
      rw [s1, s2]
    have htile3 : tileAtD (castRay (castRay m cr cc (-1) 0 n).2 cr cc 1 0 n).2
        (cr + 0 * ((i : ℤ) + 1)) (cc + -1 * ((i : ℤ) + 1)) = TileType.SoftWall := by
      rw [← hsoft]
      have s1 : tileAtD (castRay (castRay m cr cc (-1) 0 n).2 cr cc 1 0 n).2
          (cr + 0 * ((i : ℤ) + 1)) (cc + -1 * ((i : ℤ) + 1)) =
          tileAtD (castRay m cr cc (-1) 0 n).2 (cr + 0 * ((i : ℤ) + 1))
            (cc + -1 * ((i : ℤ) + 1)) := by
        apply castRay_preserves 1 0 n _ cr cc _ _ (by omega) (by omega)
        intro j hj1 hjn hcon
        omega
      have s2 : tileAtD (castRay m cr cc (-1) 0 n).2 (cr + 0 * ((i : ℤ) + 1))
          (cc + -1 * ((i : ℤ) + 1)) =
          tileAtD m (cr + 0 * ((i : ℤ) + 1)) (cc + -1 * ((i : ℤ) + 1)) := by
        apply castRay_preserves (-1) 0 n m cr cc _ _ (by omega) (by omega)
        intro j hj1 hjn hcon
        omega
      rw [s1, s2]
    have hi3 : i < (castRay (castRay (castRay m cr cc (-1) 0 n).2 cr cc 1 0 n).2
        cr cc 0 (-1) n).1.length := by
      rw [hlist]
      exact hi
    have hmap := castRay_soft_map 0 (-1) n _ cr cc i hi3 htile3
    have hbounds := GridWF_bounds _ hw3 _ _ hbb.1 hbb.2.1 hbb.2.2.1 hbb.2.2.2
    have hE : tileAtD (castRay (castRay (castRay m cr cc (-1) 0 n).2 cr cc 1 0 n).2
        cr cc 0 (-1) n).2 (cr + 0 * ((i : ℤ) + 1)) (cc + -1 * ((i : ℤ) + 1)) =
        TileType.Empty := by
      rw [hmap.1]
      exact tileAtD_setTile_self _ _ _ _ hbounds.1 hbounds.2
    have p4 : tileAtD (castRay (castRay (castRay (castRay m cr cc (-1) 0 n).2
        cr cc 1 0 n).2 cr cc 0 (-1) n).2 cr cc 0 1 n).2
        (cr + 0 * ((i : ℤ) + 1)) (cc + -1 * ((i : ℤ) + 1)) =
        tileAtD (castRay (castRay (castRay m cr cc (-1) 0 n).2 cr cc 1 0 n).2
          cr cc 0 (-1) n).2 (cr + 0 * ((i : ℤ) + 1)) (cc + -1 * ((i : ℤ) + 1)) := by
      apply castRay_preserves 0 1 n _ cr cc _ _ (by omega) (by omega)
      intro j hj1 hjn hcon
      omega
    rw [p4, hE]
  · -- ray right, cast last
    have hlist : (castRay (castRay (castRay (castRay m cr cc (-1) 0 n).2 cr cc 1 0 n).2
        cr cc 0 (-1) n).2 cr cc 0 1 n).1 = (castRay m cr cc 0 1 n).1 := by
      apply castRay_congr
      intro t ht1 htn hb
      push_neg at hb
      have s1 : tileAtD (castRay (castRay (castRay m cr cc (-1) 0 n).2 cr cc 1 0 n).2
          cr cc 0 (-1) n).2 (cr + 0 * (t : ℤ)) (cc + 1 * (t : ℤ)) =
          tileAtD (castRay (castRay m cr cc (-1) 0 n).2 cr cc 1 0 n).2
            (cr + 0 * (t : ℤ)) (cc + 1 * (t : ℤ)) := by
        apply castRay_preserves 0 (-1) n _ cr cc _ _ (by omega) (by omega)
        intro j hj1 hjn hcon
        omega
      have s2 : tileAtD (castRay (castRay m cr cc (-1) 0 n).2 cr cc 1 0 n).2
          (cr + 0 * (t : ℤ)) (cc + 1 * (t : ℤ)) =
          tileAtD (castRay m cr cc (-1) 0 n).2 (cr + 0 * (t : ℤ)) (cc + 1 * (t : ℤ)) := by
        apply castRay_preserves 1 0 n _ cr cc _ _ (by omega) (by omega)
        intro j hj1 hjn hcon
        omega
      have s3 : tileAtD (castRay m cr cc (-1) 0 n).2 (cr + 0 * (t : ℤ))
          (cc + 1 * (t : ℤ)) = tileAtD m (cr + 0 * (t : ℤ)) (cc + 1 * (t : ℤ)) := by
        apply castRay_preserves (-1) 0 n m cr cc _ _ (by omega) (by omega)
        intro j hj1 hjn hcon
        omega
      rw [s1, s2, s3]
    have htile4 : tileAtD (castRay (castRay (castRay m cr cc (-1) 0 n).2 cr cc 1 0 n).2
        cr cc 0 (-1) n).2 (cr + 0 * ((i : ℤ) + 1)) (cc + 1 * ((i : ℤ) + 1)) =
        TileType.SoftWall := by
      rw [← hsoft]
      have s1 : tileAtD (castRay (castRay (castRay m cr cc (-1) 0 n).2 cr cc 1 0 n).2
          cr cc 0 (-1) n).2 (cr + 0 * ((i : ℤ) + 1)) (cc + 1 * ((i : ℤ) + 1)) =
          tileAtD (castRay (castRay m cr cc (-1) 0 n).2 cr cc 1 0 n).2
            (cr + 0 * ((i : ℤ) + 1)) (cc + 1 * ((i : ℤ) + 1)) := by
        apply castRay_preserves 0 (-1) n _ cr cc _ _ (by omega) (by omega)
        intro j hj1 hjn hcon
        omega
      have s2 : tileAtD (castRay (castRay m cr cc (-1) 0 n).2 cr cc 1 0 n).2
          (cr + 0 * ((i : ℤ) + 1)) (cc + 1 * ((i : ℤ) + 1)) =
          tileAtD (castRay m cr cc (-1) 0 n).2 (cr + 0 * ((i : ℤ) + 1))
            (cc + 1 * ((i : ℤ) + 1)) := by
        apply castRay_preserves 1 0 n _ cr cc _ _ (by omega) (by omega)
        intro j hj1 hjn hcon
        omega
      have s3 : tileAtD (castRay m cr cc (-1) 0 n).2 (cr + 0 * ((i : ℤ) + 1))
          (cc + 1 * ((i : ℤ) + 1)) =
          tileAtD m (cr + 0 * ((i : ℤ) + 1)) (cc + 1 * ((i : ℤ) + 1)) := by
        apply castRay_preserves (-1) 0 n m cr cc _ _ (by omega) (by omega)
        intro j hj1 hjn hcon
        omega
      rw [s1, s2, s3]
    have hi4 : i < (castRay (castRay (castRay (castRay m cr cc (-1) 0 n).2 cr cc 1 0 n).2
        cr cc 0 (-1) n).2 cr cc 0 1 n).1.length := by
      rw [hlist]
      exact hi
    have hmap := castRay_soft_map 0 1 n _ cr cc i hi4 htile4
    have hbounds := GridWF_bounds _ hw4 _ _ hbb.1 hbb.2.1 hbb.2.2.1 hbb.2.2.2
    rw [hmap.1]
    exact tileAtD_setTile_self _ _ _ _ hbounds.1 hbounds.2

lemma center_not_in_rays (m : Grid) (cr cc : ℤ) (n : ℕ) :
    ((cc, cr) : ℤ × ℤ) ∉ (explodeDirs m cr cc n).1 := by
  rw [explodeDirs_eq_rays]
  intro hmem
  rcases List.mem_append.mp hmem with h123 | hD
  · rcases List.mem_append.mp h123 with h12 | hC
    · rcases List.mem_append.mp h12 with hA | hB
      · obtain ⟨t, _, hshape⟩ := mem_ray_shape (-1) 0 n m cr cc _ hA
        rw [Prod.mk.injEq] at hshape
        omega
      · obtain ⟨t, _, hshape⟩ := mem_ray_shape 1 0 n m cr cc _ hB
        rw [Prod.mk.injEq] at hshape
        omega
    · obtain ⟨t, _, hshape⟩ := mem_ray_shape 0 (-1) n m cr cc _ hC
      rw [Prod.mk.injEq] at hshape
      omega
  · obtain ⟨t, _, hshape⟩ := mem_ray_shape 0 1 n m cr cc _ hD
    rw [Prod.mk.injEq] at hshape
    omega

/-- C1: one bomb detonation ray-casts in the four cardinal directions.
The full particle list is the centre cell followed by the four rays, each
as cast on the pre-detonation grid (so the rays do not interfere); the
centre cell occurs exactly once; along every ray the `i`-th added particle
is the cell `i + 1` steps outward from the centre, is inside the grid, is
not a `HardWall`, and is `Empty` in the pre-detonation grid unless it is
the last particle of the ray; a `SoftWall` particle is the last of its ray
and is `Empty` in the post-detonation grid; a run of in-bounds `Empty`
cells is followed to its full extent (up to `range`); no particle lies
strictly beyond a non-`Empty` cell of its ray; and when the first
obstruction along a direction within range is an in-bounds `SoftWall`
(every nearer cell in-bounds and `Empty`), the ray reaches exactly that
cell: its length is exactly the `SoftWall`'s distance, the `SoftWall` cell
is in the detonation's particle list, and its tile is converted to `Empty`
in the post-detonation grid. -/
theorem c1_explosion_ray_casting (m : Grid) (cr cc : ℤ) (n : ℕ) (hw : GridWF m) :
    (explodeDirs m cr cc n).1 =
        (castRay m cr cc (-1) 0 n).1 ++ (castRay m cr cc 1 0 n).1 ++
          (castRay m cr cc 0 (-1) n).1 ++ (castRay m cr cc 0 1 n).1 ∧
    (((cc, cr) : ℤ × ℤ) :: (explodeDirs m cr cc n).1).count (cc, cr) = 1 ∧
    (∀ dr dc : ℤ,
      (castRay m cr cc dr dc n).1.length ≤ n ∧
      (∀ i : ℕ, i < (castRay m cr cc dr dc n).1.length →
        (castRay m cr cc dr dc n).1[i]? =
            some (cc + dc * ((i : ℤ) + 1), cr + dr * ((i : ℤ) + 1)) ∧
        (0 ≤ cr + dr * ((i : ℤ) + 1) ∧ cr + dr * ((i : ℤ) + 1) < GRID_ROWS ∧
          0 ≤ cc + dc * ((i : ℤ) + 1) ∧ cc + dc * ((i : ℤ) + 1) < GRID_COLS) ∧
        tileAtD m (cr + dr * ((i : ℤ) + 1)) (cc + dc * ((i : ℤ) + 1)) ≠ TileType.HardWall ∧
        (i + 1 < (castRay m cr cc dr dc n).1.length →
          tileAtD m (cr + dr * ((i : ℤ) + 1)) (cc + dc * ((i : ℤ) + 1)) = TileType.Empty) ∧
        (tileAtD m (cr + dr * ((i : ℤ) + 1)) (cc + dc * ((i : ℤ) + 1)) = TileType.SoftWall →
          i + 1 = (castRay m cr cc dr dc n).1.length))) ∧
    (∀ dr dc : ℤ, (dr, dc) ∈ dirPairs →
      ∀ i : ℕ, i < (castRay m cr cc dr dc n).1.length →
        tileAtD m (cr + dr * ((i : ℤ) + 1)) (cc + dc * ((i : ℤ) + 1)) = TileType.SoftWall →
        tileAtD (explodeDirs m cr cc n).2 (cr + dr * ((i : ℤ) + 1))
            (cc + dc * ((i : ℤ) + 1)) = TileType.Empty) ∧
    (∀ dr dc : ℤ, ∀ t : ℕ, t ≤ n →
      (∀ j : ℕ, 1 ≤ j → j ≤ t →
        ¬(cr + dr * (j : ℤ) < 0 ∨ GRID_ROWS ≤ cr + dr * (j : ℤ) ∨ cc + dc * (j : ℤ) < 0 ∨
            GRID_COLS ≤ cc + dc * (j : ℤ)) ∧
          tileAtD m (cr + dr * (j : ℤ)) (cc + dc * (j : ℤ)) = TileType.Empty) →
      t ≤ (castRay m cr cc dr dc n).1.length) ∧
    (∀ dr dc : ℤ, (dr, dc) ∈ dirPairs → ∀ j i : ℕ, 1 ≤ j → j < i →
      tileAtD m (cr + dr * (j : ℤ)) (cc + dc * (j : ℤ)) ≠ TileType.Empty →
      ((cc + dc * (i : ℤ), cr + dr * (i : ℤ)) : ℤ × ℤ) ∉
        (((cc, cr) : ℤ × ℤ) :: (explodeDirs m cr cc n).1)) ∧
    (∀ dr dc : ℤ, (dr, dc) ∈ dirPairs → ∀ t : ℕ, 1 ≤ t → t ≤ n →
      (∀ j : ℕ, 1 ≤ j → j < t →
        ¬(cr + dr * (j : ℤ) < 0 ∨ GRID_ROWS ≤ cr + dr * (j : ℤ) ∨ cc + dc * (j : ℤ) < 0 ∨
            GRID_COLS ≤ cc + dc * (j : ℤ)) ∧
          tileAtD m (cr + dr * (j : ℤ)) (cc + dc * (j : ℤ)) = TileType.Empty) →
      ¬(cr + dr * (t : ℤ) < 0 ∨ GRID_ROWS ≤ cr + dr * (t : ℤ) ∨ cc + dc * (t : ℤ) < 0 ∨
          GRID_COLS ≤ cc + dc * (t : ℤ)) →
      tileAtD m (cr + dr * (t : ℤ)) (cc + dc * (t : ℤ)) = TileType.SoftWall →
      (castRay m cr cc dr dc n).1.length = t ∧
      ((cc + dc * (t : ℤ), cr + dr * (t : ℤ)) : ℤ × ℤ) ∈ (explodeDirs m cr cc n).1 ∧
      tileAtD (explodeDirs m cr cc n).2 (cr + dr * (t : ℤ)) (cc + dc * (t : ℤ)) =
        TileType.Empty) := by
  refine ⟨explodeDirs_eq_rays m cr cc n, ?_, ?_, ?_, ?_, ?_, ?_⟩
  · have hnm := center_not_in_rays m cr cc n
    simp [List.count_cons, List.count_eq_zero.mpr hnm]
  · intro dr dc
    refine ⟨castRay_length_le dr dc n m cr cc, ?_⟩
    intro i hi
    refine ⟨castRay_get dr dc n m cr cc i hi, (castRay_cell_ok dr dc n m cr cc i hi).1,
      (castRay_cell_ok dr dc n m cr cc i hi).2, castRay_empty_before dr dc n m cr cc i, ?_⟩
    intro hsoft
    by_cases hlast : i + 1 < (castRay m cr cc dr dc n).1.length
    · have := castRay_empty_before dr dc n m cr cc i hlast
      rw [this] at hsoft
      cases hsoft
    · omega
  · intro dr dc hd i hi hsoft
    exact explodeDirs_soft_empty m cr cc n hw dr dc hd i hi hsoft
  · intro dr dc t ht hcells
    exact castRay_continue dr dc n m cr cc t ht hcells
  · intro dr dc hd j i hj hji hwall hmem
    rcases List.mem_cons.mp hmem with hceq | hmem2
    · rw [Prod.mk.injEq] at hceq
      fin_cases hd <;> omega
    · rw [explodeDirs_eq_rays] at hmem2
      rcases List.mem_append.mp hmem2 with h123 | hD
      · rcases List.mem_append.mp h123 with h12 | hC
        · rcases List.mem_append.mp h12 with hA | hB
          · obtain ⟨t, ht, hshape⟩ := mem_ray_shape (-1) 0 n m cr cc _ hA
            rw [Prod.mk.injEq] at hshape
            fin_cases hd
            · exact ray_no_beyond (-1) 0 n m cr cc j i t hj hji hwall ht (by omega)
            · omega
            · omega
            · omega
          · obtain ⟨t, ht, hshape⟩ := mem_ray_shape 1 0 n m cr cc _ hB
            rw [Prod.mk.injEq] at hshape
            fin_cases hd
            · omega
            · exact ray_no_beyond 1 0 n m cr cc j i t hj hji hwall ht (by omega)
            · omega
            · omega
        · obtain ⟨t, ht, hshape⟩ := mem_ray_shape 0 (-1) n m cr cc _ hC
          rw [Prod.mk.injEq] at hshape
          fin_cases hd
          · omega
          · omega
          · exact ray_no_beyond 0 (-1) n m cr cc j i t hj hji hwall ht (by omega)
          · omega
      · obtain ⟨t, ht, hshape⟩ := mem_ray_shape 0 1 n m cr cc _ hD
        rw [Prod.mk.injEq] at hshape
        fin_cases hd
        · omega
        · omega
        · omega
        · exact ray_no_beyond 0 1 n m cr cc j i t hj hji hwall ht (by omega)
  · intro dr dc hd t ht1 ht2 hcells hb hsoft
    have hlen := castRay_soft_stop dr dc n m cr cc t ht1 ht2 hcells hb hsoft
    have hi : t - 1 < (castRay m cr cc dr dc n).1.length := by omega
    have et : ((↑(t - 1) : ℤ) + 1) = (t : ℤ) := by omega
    have hget := castRay_get dr dc n m cr cc (t - 1) hi
    rw [et] at hget
    have hv : (castRay m cr cc dr dc n).1[t - 1] =
        ((cc + dc * (t : ℤ), cr + dr * (t : ℤ)) : ℤ × ℤ) := by
      have h2 := List.getElem?_eq_getElem hi
      rw [h2] at hget
      exact Option.some.inj hget
    have hmem : ((cc + dc * (t : ℤ), cr + dr * (t : ℤ)) : ℤ × ℤ) ∈
        (castRay m cr cc dr dc n).1 := hv ▸ List.getElem_mem hi
    have hsoft2 : tileAtD m (cr + dr * ((↑(t - 1) : ℤ) + 1))
        (cc + dc * ((↑(t - 1) : ℤ) + 1)) = TileType.SoftWall := by
      rw [et]; exact hsoft
    have hfin := explodeDirs_soft_empty m cr cc n hw dr dc hd (t - 1) hi hsoft2
    rw [et] at hfin
    refine ⟨hlen, ?_, hfin⟩
    rw [explodeDirs_eq_rays]
    fin_cases hd
    · exact List.mem_append.mpr (Or.inl (List.mem_append.mpr
        (Or.inl (List.mem_append.mpr (Or.inl hmem)))))
    · exact List.mem_append.mpr (Or.inl (List.mem_append.mpr
        (Or.inl (List.mem_append.mpr (Or.inr hmem)))))
    · exact List.mem_append.mpr (Or.inl (List.mem_append.mpr (Or.inr hmem)))
    · exact List.mem_append.mpr (Or.inr hmem)

lemma GridWF_genMap (soft : ℕ → ℕ → Bool) : GridWF (genMap soft) := by
  constructor
  · simp [genMap]
  · intro row hrow
    unfold genMap at hrow
    rw [List.mem_map] at hrow
    obtain ⟨a, _, hrow⟩ := hrow
    rw [← hrow, List.length_map, List.length_range]

lemma mem_intRange (lo hi x : ℤ) (h1 : lo ≤ x) (h2 : x ≤ hi) : x ∈ intRange lo hi := by
  unfold intRange
  rw [List.mem_map]
  refine ⟨(x - lo).toNat, ?_, ?_⟩
  · rw [List.mem_range]
    omega
  · omega

lemma genMap_tile (soft : ℕ → ℕ → Bool) (r c : ℕ)
    (hr : r < GRID_ROWS.toNat) (hc : c < GRID_COLS.toNat) :
    tileAtD (genMap soft) (r : ℤ) (c : ℤ) =
      if r = 0 ∨ r = GRID_ROWS.toNat - 1 ∨ c = 0 ∨ c = GRID_COLS.toNat - 1 ∨
          (r % 2 = 0 ∧ c % 2 = 0) then
        TileType.HardWall
      else if ¬((r = 1 ∧ c = 1) ∨ (r = 1 ∧ c = 2) ∨ (r = 2 ∧ c = 1)) ∧ soft r c then
        TileType.SoftWall
      else TileType.Empty := by
  unfold genMap tileAtD
  rw [Int.toNat_natCast, Int.toNat_natCast]
  simp only [List.getD_eq_getElem?_getD]
  rw [List.getElem?_map, List.getElem?_range hr]
  simp only [Option.map_some', Option.getD_some]
  rw [List.getElem?_map, List.getElem?_range hc]
  simp only [Option.map_some', Option.getD_some]

/-- C2 (counterexample to the claim as stated): in a tick where only
ArrowRight is held, the player's displacement is `3.5` pixels whether
`dt = 1` or `dt = 2` — the per-tick displacement is not proportional to
the delta-time. -/
theorem c2_counterexample :
    (update c2Start inpRight 2 0 rndNone).player.x - c2Start.player.x =
        (update c2Start inpRight 1 0 rndNone).player.x - c2Start.player.x ∧
    (update c2Start inpRight 1 0 rndNone).player.x - c2Start.player.x = Q2.ofQ (7 / 2) ∧
    ¬((update c2Start inpRight 2 0 rndNone).player.x - c2Start.player.x =
        Q2.ofQ 2 * ((update c2Start inpRight 1 0 rndNone).player.x - c2Start.player.x)) := by
  refine ⟨?_, ?_, ?_⟩
  · with_unfolding_all rfl
  · with_unfolding_all rfl
  · exact of_decide_eq_false (by with_unfolding_all rfl)

/-- C2 (amended): bomb and explosion timers are decremented by exactly the
delta-time each tick (rate × dt), but movement is per-frame, not
rate × dt: the player's position after a tick does not depend on the
delta-time at all, and an enemy's step is either zero or exactly
`speed · direction`, independent of the delta-time. -/
theorem c2_amended_rate_times_dt :
    (∀ (st : GameState) (inp : Inputs) (now : ℤ) (rnd : ℕ → EnemyRand) (dt1 dt2 : ℚ),
      (update st inp dt1 now rnd).player.x = (update st inp dt2 now rnd).player.x ∧
      (update st inp dt1 now rnd).player.y = (update st inp dt2 now rnd).player.y) ∧
    (∀ (dt : ℚ) (now : ℤ) (st : GameState),
      (stepBombs dt now st).bombs = (st.bombs.map (decBomb dt)).filter bombAliveB) ∧
    (∀ (dt : ℚ) (st : GameState),
      (stepExplosions dt st).explosions = (st.explosions.map (decExp dt)).filter expAliveB) ∧
    (∀ (m : Grid) (bombs : List Bomb) (px py : Q2) (r : EnemyRand) (e : Enemy),
      ((stepEnemy m bombs px py r e).1.x = e.x ∧ (stepEnemy m bombs px py r e).1.y = e.y) ∨
        ((stepEnemy m bombs px py r e).1.x = e.x + Q2.ofQ ((e.direction.x : ℚ) * e.speed) ∧
          (stepEnemy m bombs px py r e).1.y = e.y + Q2.ofQ ((e.direction.y : ℚ) * e.speed))) := by
  refine ⟨?_, stepBombs_bombs, stepExplosions_explosions, ?_⟩
  · intro st inp now rnd dt1 dt2
    rcases eq_or_ne st.status GameStatus.Playing with hs | hs
    · constructor
      · rw [update_player_x_playing st inp dt1 now rnd hs,
          update_player_x_playing st inp dt2 now rnd hs]
      · rw [update_player_y_playing st inp dt1 now rnd hs,
          update_player_y_playing st inp dt2 now rnd hs]
    · rw [update_not_playing st inp dt1 now rnd hs, update_not_playing st inp dt2 now rnd hs]
      exact ⟨rfl, rfl⟩
  · intro m bombs px py r e
    unfold stepEnemy
    dsimp only
    split
    · split
      · exact Or.inl ⟨rfl, rfl⟩
      · exact Or.inr ⟨rfl, rfl⟩
    · split
      · exact Or.inl ⟨rfl, rfl⟩
      · exact Or.inr ⟨rfl, rfl⟩

/-- C3 (code bug): in the tick in which one explosion kills the player and
removes the last enemy, the final win check still sees the tick-entry
status `Playing` (a stale closure capture), so `setGameStatus(Won)` runs
after `setGameStatus(Lost)` and the round ends `Won` with a dead player,
where the spec requires `Lost`. -/
theorem c3_won_overrides_lost :
    c3Start.status = GameStatus.Playing ∧
    (update c3Start inpNone 100 0 rndNone).player.alive = false ∧
    (update c3Start inpNone 100 0 rndNone).enemies = [] ∧
    (update c3Start inpNone 100 0 rndNone).status = GameStatus.Won := by
  refine ⟨rfl, ?_, ?_, ?_⟩
  · with_unfolding_all rfl
  · with_unfolding_all rfl
  · with_unfolding_all rfl

/-- C4: in every reachable state no two live bombs occupy the same grid
cell, and a placement attempt while some live bomb already occupies the
player's cell leaves the state unchanged. -/
theorem c4_bomb_cell_unique (st : GameState) (h : Reachable st) :
    st.bombs.Pairwise (fun b1 b2 => bombCell b1 ≠ bombCell b2) ∧
    ∀ now : ℤ, (∃ b ∈ st.bombs, bombCell b = getGridPos st.player.x st.player.y) →
      placeBomb now st = st := by
  refine ⟨(reachable_inv st h).2.2.2.2, ?_⟩
  rintro now ⟨b, hb, hcell⟩
  unfold placeBomb
  dsimp only
  split
  · rfl
  · split
    · rfl
    · rename_i hocc
      exfalso
      apply hocc
      rw [List.any_eq_true]
      refine ⟨b, hb, ?_⟩
      have h1 : (getGridPos b.x b.y).r = (getGridPos st.player.x st.player.y).r := by
        rw [show getGridPos b.x b.y = bombCell b from rfl, hcell]
      have h2 : (getGridPos b.x b.y).c = (getGridPos st.player.x st.player.y).c := by
        rw [show getGridPos b.x b.y = bombCell b from rfl, hcell]
      simp [h1, h2]

/-- C4 witness: instantiated at a freshly started round. -/
theorem c4_witness :
    (initGame softNone oracleSpawn).bombs.Pairwise (fun b1 b2 => bombCell b1 ≠ bombCell b2) :=
  (c4_bomb_cell_unique _ (Reachable.init softNone oracleSpawn)).1

/-- C5: in every reachable state the player's live bomb count is at most
`maxBombs`; placement is rejected when the count is at the maximum; a
detonation of a player-owned bomb decrements the count by exactly one, and
a detonation of a bomb with any other owner leaves it unchanged. -/
theorem c5_bomb_count_bound :
    (∀ st : GameState, Reachable st → st.player.bombCount ≤ st.player.maxBombs) ∧
    (∀ st : GameState, st.player.bombCount ≥ st.player.maxBombs →
      ∀ now : ℤ, placeBomb now st = st) ∧
    (∀ (b : Bomb) (now : ℤ) (st : GameState), b.ownerId = "player" →
      (explodeEffects b now st).player.bombCount = st.player.bombCount - 1) ∧
    (∀ (b : Bomb) (now : ℤ) (st : GameState), ¬(b.ownerId = "player") →
      (explodeEffects b now st).player.bombCount = st.player.bombCount) := by
  refine ⟨?_, ?_, ?_, ?_⟩
  · intro st h
    obtain ⟨hmax, hcount, hlen, _, _⟩ := reachable_inv st h
    omega
  · intro st hge now
    unfold placeBomb
    dsimp only
    rw [if_pos hge]
  · intro b now st hown
    rw [explodeEffects_bombCount, if_pos hown]
  · intro b now st hown
    rw [explodeEffects_bombCount, if_neg hown]

/-- C5 witness: instantiated at a freshly started round and at a concrete
player-owned bomb. -/
theorem c5_witness :
    (initGame softNone oracleSpawn).player.bombCount ≤
        (initGame softNone oracleSpawn).player.maxBombs ∧
    (explodeEffects bombAt11 0 c2Start).player.bombCount = c2Start.player.bombCount - 1 :=
  ⟨c5_bomb_count_bound.1 _ (Reachable.init softNone oracleSpawn),
    c5_bomb_count_bound.2.2.1 bombAt11 0 c2Start rfl⟩

/-- C6: once the status is `Lost` or `Won`, a tick is the identity on the
state, and so is any number of ticks. -/
theorem c6_terminal_tick_identity (st : GameState) (inp : Inputs) (dt : ℚ) (now : ℤ)
    (rnd : ℕ → EnemyRand) (h : st.status = GameStatus.Lost ∨ st.status = GameStatus.Won) :
    update st inp dt now rnd = st ∧
      ∀ k : ℕ, (fun s => update s inp dt now rnd)^[k] st = st := by
  have h1 : update st inp dt now rnd = st := by
    apply update_not_playing
    rcases h with h | h <;> rw [h] <;> intro hcon <;> cases hcon
  refine ⟨h1, ?_⟩
  intro k
  induction k with
  | zero => rfl
  | succ j ih => rw [Function.iterate_succ_apply, h1, ih]

/-- C6 witness: a concrete lost state is frozen by a tick. -/
theorem c6_witness : update lostState inpNone 16 0 rndNone = lostState :=
  (c6_terminal_tick_identity lostState inpNone 16 0 rndNone (Or.inl rfl)).1

/-- C7: when no wall blocks the target rectangle, the blocked-movement
check reports a block exactly when some live bomb's tile-sized rectangle
overlaps the target rectangle while not overlapping the entity's current
rectangle; concretely, an entity standing on a bomb at cell `(1, 1)` may
move off it, while one approaching that bomb from a non-overlapping
position is blocked. -/
theorem c7_bomb_pass_through :
    (∀ (m : Grid) (bombs : List Bomb) (tx ty cx cy : Q2) (w h : ℚ),
      wallsBlock m tx ty w h = false →
      (isCollision m bombs tx ty w h cx cy = true ↔
        ∃ b ∈ bombs, rectIntersect (centerRect tx ty w h) (bombRect b) = true ∧
          rectIntersect (centerRect cx cy w h) (bombRect b) = false)) ∧
    isCollision mapOpen [bombAt11] (Q2.ofQ (151 / 2)) (Q2.ofQ 72) HITBOX_SIZE HITBOX_SIZE
        (Q2.ofQ 72) (Q2.ofQ 72) = false ∧
    isCollision mapOpen [bombAt11] (Q2.ofQ (215 / 2)) (Q2.ofQ 72) HITBOX_SIZE HITBOX_SIZE
        (Q2.ofQ 111) (Q2.ofQ 72) = true := by
  refine ⟨?_, by with_unfolding_all rfl, by with_unfolding_all rfl⟩
  intro m bombs tx ty cx cy w h hwall
  unfold isCollision
  rw [hwall]
  simp only [Bool.false_or, bombsBlock, List.any_eq_true, Bool.and_eq_true,
    Bool.not_eq_true']

/-- C7 witness: the characterisation instantiated at the approach-blocked
scenario. -/
theorem c7_witness :
    isCollision mapOpen [bombAt11] (Q2.ofQ (215 / 2)) (Q2.ofQ 72) HITBOX_SIZE HITBOX_SIZE
        (Q2.ofQ 111) (Q2.ofQ 72) = true ↔
      ∃ b ∈ [bombAt11],
        rectIntersect (centerRect (Q2.ofQ (215 / 2)) (Q2.ofQ 72) HITBOX_SIZE HITBOX_SIZE)
            (bombRect b) = true ∧
          rectIntersect (centerRect (Q2.ofQ 111) (Q2.ofQ 72) HITBOX_SIZE HITBOX_SIZE)
            (bombRect b) = false :=
  c7_bomb_pass_through.1 mapOpen [bombAt11] (Q2.ofQ (215 / 2)) (Q2.ofQ 72) (Q2.ofQ 111)
    (Q2.ofQ 72) HITBOX_SIZE HITBOX_SIZE (by with_unfolding_all rfl)

/-- C8: if any grid cell in the span covered by the target rectangle lies
outside `[0, GRID_ROWS) × [0, GRID_COLS)`, the blocked-movement check
reports a block, for any grid contents and any bomb list. -/
theorem c8_out_of_bounds_is_solid (m : Grid) (bombs : List Bomb) (tx ty cx cy : Q2)
    (w h : ℚ) (r c : ℤ)
    (hr1 : Q2.floorZ ((centerRect tx ty w h).y / Q2.ofQ TILE_SIZE) ≤ r)
    (hr2 : r ≤ Q2.floorZ (((centerRect tx ty w h).y + (centerRect tx ty w h).h -
        Q2.ofQ (1 / 100)) / Q2.ofQ TILE_SIZE))
    (hc1 : Q2.floorZ ((centerRect tx ty w h).x / Q2.ofQ TILE_SIZE) ≤ c)
    (hc2 : c ≤ Q2.floorZ (((centerRect tx ty w h).x + (centerRect tx ty w h).w -
        Q2.ofQ (1 / 100)) / Q2.ofQ TILE_SIZE))
    (hout : r < 0 ∨ GRID_ROWS ≤ r ∨ c < 0 ∨ GRID_COLS ≤ c) :
    isCollision m bombs tx ty w h cx cy = true := by
  unfold isCollision
  have hwb : wallsBlock m tx ty w h = true := by
    unfold wallsBlock
    dsimp only
    rw [List.any_eq_true]
    refine ⟨r, mem_intRange _ _ _ hr1 hr2, ?_⟩
    rw [List.any_eq_true]
    refine ⟨c, mem_intRange _ _ _ hc1 hc2, ?_⟩
    simp only [Bool.or_eq_true, decide_eq_true_eq]
    tauto
  rw [hwb]
  rfl

/-- C8 witness: a target rectangle poking past the left edge of the grid
is blocked even on an all-open grid with no bombs. -/
theorem c8_witness :
    isCollision mapOpen [] (Q2.ofQ 10) (Q2.ofQ 72) HITBOX_SIZE HITBOX_SIZE
        (Q2.ofQ 72) (Q2.ofQ 72) = true :=
  c8_out_of_bounds_is_solid mapOpen [] (Q2.ofQ 10) (Q2.ofQ 72) (Q2.ofQ 72) (Q2.ofQ 72)
    HITBOX_SIZE HITBOX_SIZE 1 (-1)
    (of_decide_eq_true (by with_unfolding_all rfl))
    (of_decide_eq_true (by with_unfolding_all rfl))
    (of_decide_eq_true (by with_unfolding_all rfl))
    (of_decide_eq_true (by with_unfolding_all rfl))
    (by decide)

/-- C9: in every generated maze, every outer-border cell and every
even-even cell is a `HardWall`, and the three spawn-adjacent safe-zone
cells `(1,1)`, `(1,2)`, `(2,1)` are `Empty`, for every soft-wall oracle. -/
theorem c9_generated_walls (soft : ℕ → ℕ → Bool) (r c : ℕ) (hr : r < 15) (hc : c < 15) :
    ((r = 0 ∨ r = 14 ∨ c = 0 ∨ c = 14 ∨ (r % 2 = 0 ∧ c % 2 = 0)) →
      tileAtD (genMap soft) (r : ℤ) (c : ℤ) = TileType.HardWall) ∧
    tileAtD (genMap soft) ((1 : ℕ) : ℤ) ((1 : ℕ) : ℤ) = TileType.Empty ∧
    tileAtD (genMap soft) ((1 : ℕ) : ℤ) ((2 : ℕ) : ℤ) = TileType.Empty ∧
    tileAtD (genMap soft) ((2 : ℕ) : ℤ) ((1 : ℕ) : ℤ) = TileType.Empty := by
  have hR : GRID_ROWS.toNat = 15 := rfl
  have hC : GRID_COLS.toNat = 15 := rfl
  refine ⟨?_, ?_, ?_, ?_⟩
  · intro hcond
    rw [genMap_tile soft r c (by omega) (by omega)]
    rw [if_pos (by omega)]
  · rw [genMap_tile soft 1 1 (by omega) (by omega)]
    rw [if_neg (by omega), if_neg (by simp)]
  · rw [genMap_tile soft 1 2 (by omega) (by omega)]
    rw [if_neg (by omega), if_neg (by simp)]
  · rw [genMap_tile soft 2 1 (by omega) (by omega)]
    rw [if_neg (by omega), if_neg (by simp)]

/-- C9 witness: instantiated on the all-soft oracle at the border cell
`(0, 5)`. -/
theorem c9_witness :
    tileAtD (genMap (fun _ _ => true)) ((0 : ℕ) : ℤ) ((5 : ℕ) : ℤ) = TileType.HardWall ∧
    tileAtD (genMap (fun _ _ => true)) ((1 : ℕ) : ℤ) ((1 : ℕ) : ℤ) = TileType.Empty :=
  ⟨(c9_generated_walls (fun _ _ => true) 0 5 (by decide) (by decide)).1 (Or.inl rfl),
    (c9_generated_walls (fun _ _ => true) 0 5 (by decide) (by decide)).2.1⟩

/-- C10: in every reachable state the player's `bombCount` equals the
number of bombs in the live bomb collection, and every live bomb is owned
by the player. -/
theorem c10_count_matches_collection (st : GameState) (h : Reachable st) :
    st.player.bombCount = (st.bombs.length : ℤ) ∧ ∀ b ∈ st.bombs, b.ownerId = "player" :=
  ⟨(reachable_inv st h).2.1, (reachable_inv st h).2.2.2.1⟩

/-- C10 witness: instantiated at a freshly started round. -/
theorem c10_witness :
    (initGame softNone oracleSpawn).player.bombCount =
        ((initGame softNone oracleSpawn).bombs.length : ℤ) :=
  (c10_count_matches_collection _ (Reachable.init softNone oracleSpawn)).1

/-- C1 witness: instantiated on the all-soft-wall maze at centre `(7, 7)`
with range 2. -/
theorem c1_witness :
    ((((7 : ℤ), (7 : ℤ)) : ℤ × ℤ) ::
        (explodeDirs (genMap (fun _ _ => true)) 7 7 2).1).count (7, 7) = 1 :=
  (c1_explosion_ray_casting (genMap (fun _ _ => true)) 7 7 2 (GridWF_genMap _)).2.1

end RabbitGame
